import Mathlib

/-!
# politeiawww event manager (`politeiawww/events.go`)

A shallow embedding of the event bus (`EventManager` with `_register`,
`_unregister`, `_fireEvent`), of `initEventManager` and of the eight handler
loops started by the `_setup...` functions, followed by the properties
established for them.

Conventions of the embedding.

* A Go channel is compared by identity, so a channel is its identity, a `Nat`.
* A Go slice is embedded as the list of its visible elements. The backing
  array is never shared between two live slice headers in this file
  (`_unregister` leaves its loop right after the in-place `append`, and
  `_fireEvent` passes every channel to its goroutine by value).
* A Go map that may be `nil` is an `Option` of a function from keys to
  `Option` values; the two-result read `v, ok := m[k]` is `mapGet`.
* Run-time panics that the operations could hit (assignment into a nil map,
  slice bounds, nil pointer dereference) are the `error` side of `Except Panic`.
* `go func() { listener <- data }()` is recorded as one `Delivery`; the
  scheduling of the spawned goroutines is not modelled.
-/

namespace Politeia

/-! ## Event kinds -/

/-- Go `type EventT int`. -/
abbrev EventT := Int

def EventTypeInvalid : EventT := 0
def EventTypeProposalSubmitted : EventT := 1
def EventTypeProposalStatusChange : EventT := 2
def EventTypeProposalEdited : EventT := 3
def EventTypeProposalVoteStarted : EventT := 4
def EventTypeProposalVoteAuthorized : EventT := 5
def EventTypeProposalVoteFinished : EventT := 6
def EventTypeUserManage : EventT := 7

/-! ## Go primitives used by the bus -/

/-- Identity of a `chan interface{}`. -/
abbrev Chan := Nat

/-- Run-time panics reachable from the primitives used in `events.go`. -/
inductive Panic where
  | nilMapAssignment
  | sliceBoundsOutOfRange
  | nilPointerDereference
  deriving DecidableEq

/-- Go `map[EventT][]chan interface{}`; `none` is the nil map. -/
abbrev ListenerMap := Option (EventT → Option (List Chan))

/-- The read `v, ok := m[k]`: `none` when `ok` is false (a nil map has no key). -/
def mapGet (m : ListenerMap) (k : EventT) : Option (List Chan) :=
  match m with
  | none => none
  | some f => f k

/-- The assignment `m[k] = v`, which panics on a nil map. -/
def mapAssign (m : ListenerMap) (k : EventT) (v : List Chan) : Except Panic ListenerMap :=
  match m with
  | none => .error .nilMapAssignment
  | some f => .ok (some (Function.update f k (some v)))

/-- The slice expression `s[:i]` (bounds checked against the length). -/
def sliceTo (s : List Chan) (i : Nat) : Except Panic (List Chan) :=
  if i ≤ s.length then .ok (s.take i) else .error .sliceBoundsOutOfRange

/-- The slice expression `s[i:]`. -/
def sliceFrom (s : List Chan) (i : Nat) : Except Panic (List Chan) :=
  if i ≤ s.length then .ok (s.drop i) else .error .sliceBoundsOutOfRange

/-! ## The event manager -/

/-- Go `type EventManager struct { Listeners map[EventT][]chan interface{} }`. -/
structure EventManager where
  Listeners : ListenerMap

/-- The zero value `EventManager{}`: the `Listeners` map is nil. -/
def EventManager.zero : EventManager := ⟨none⟩

/-- The subscriber list of a kind: the slice stored under the key, the empty
list when the key is absent. -/
def EventManager.subscribers (e : EventManager) (k : EventT) : List Chan :=
  (mapGet e.Listeners k).getD []

/-- One goroutine spawned by `_fireEvent`: it sends `data` on `listener`. -/
structure Delivery (δ : Type) where
  listener : Chan
  data : δ
  deriving DecidableEq

/-- Go `_register`:
```go
if e.Listeners == nil { e.Listeners = make(map[EventT][]chan interface{}) }
if _, ok := e.Listeners[eventType]; ok {
    e.Listeners[eventType] = append(e.Listeners[eventType], listenerToAdd)
} else {
    e.Listeners[eventType] = []chan interface{}{listenerToAdd}
}
``` -/
def EventManager._register (e : EventManager) (eventType : EventT) (listenerToAdd : Chan) :
    Except Panic EventManager :=
  let e1 : EventManager :=
    match e.Listeners with
    | none => ⟨some (fun _ => none)⟩
    | some _ => e
  match mapGet e1.Listeners eventType with
  | some cur =>
    match mapAssign e1.Listeners eventType (cur ++ [listenerToAdd]) with
    | .error p => .error p
    | .ok m => .ok ⟨m⟩
  | none =>
    match mapAssign e1.Listeners eventType [listenerToAdd] with
    | .error p => .error p
    | .ok m => .ok ⟨m⟩

/-- The loop `for i, listener := range listeners` of `_unregister` up to its
`break`: the index of the first element equal to `listenerToRemove`, counted
from `i`. -/
def EventManager._unregister.search (listenerToRemove : Chan) : List Chan → Nat → Option Nat
  | [], _ => none
  | listener :: rest, i =>
    if listener = listenerToRemove then some i
    else EventManager._unregister.search listenerToRemove rest (i + 1)

/-- Go `_unregister`:
```go
listeners, ok := e.Listeners[eventType]
if !ok { return }
for i, listener := range listeners {
    if listener == listenerToRemove {
        e.Listeners[eventType] = append(e.Listeners[eventType][:i],
            e.Listeners[eventType][i+1:]...)
        break
    }
}
``` -/
def EventManager._unregister (e : EventManager) (eventType : EventT) (listenerToRemove : Chan) :
    Except Panic EventManager :=
  match mapGet e.Listeners eventType with
  | none => .ok e
  | some listeners =>
    match EventManager._unregister.search listenerToRemove listeners 0 with
    | none => .ok e
    | some i =>
      match sliceTo listeners i, sliceFrom listeners (i + 1) with
      | .ok front, .ok back =>
        match mapAssign e.Listeners eventType (front ++ back) with
        | .error p => .error p
        | .ok m => .ok ⟨m⟩
      | .error p, _ => .error p
      | _, .error p => .error p

/-- Go `_fireEvent`: the state after the call (the function assigns nothing)
and the goroutines it spawned, in spawn order.
```go
listeners, ok := e.Listeners[eventType]
if !ok { return }
for _, listener := range listeners {
    go func(listener chan interface{}) { listener <- data }(listener)
}
``` -/
def EventManager._fireEvent {δ : Type} (e : EventManager) (eventType : EventT) (data : δ) :
    EventManager × List (Delivery δ) :=
  match mapGet e.Listeners eventType with
  | none => (e, [])
  | some listeners => (e, listeners.map (fun listener => ⟨listener, data⟩))

/-! ## Bus initialisation -/

/-- The eight handler goroutines started by the `_setup...` functions. -/
inductive HandlerId where
  | ProposalSubmittedEmailNotification
  | ProposalStatusChangeEmailNotification
  | ProposalStatusChangeLogging
  | ProposalEditedEmailNotification
  | ProposalVoteStartedEmailNotification
  | ProposalVoteStartedLogging
  | ProposalVoteAuthorizedEmailNotification
  | UserManageLogging
  deriving DecidableEq

/-- The part of the backend that `initEventManager` writes: `b.eventManager`,
the goroutines started so far with the channel each one ranges over, and the
identity the next `make(chan interface{})` returns. -/
structure InitState where
  eventManager : EventManager
  started : List (Chan × HandlerId)
  nextChan : Chan

/-- The common tail of every `_setup...` function:
`ch := make(chan interface{})`, `go func() { for data := range ch {...} }()`,
`b.eventManager._register(eventType, ch)`. -/
def InitState.startAndRegister (st : InitState) (h : HandlerId) (eventType : EventT) :
    Except Panic InitState :=
  let ch := st.nextChan
  match st.eventManager._register eventType ch with
  | .error p => .error p
  | .ok em => .ok ⟨em, st.started ++ [(ch, h)], ch + 1⟩

/-- Go `_setupProposalSubmittedEmailNotification`; `smtp` is `b.cfg.SMTP != nil`. -/
def _setupProposalSubmittedEmailNotification (smtp : Bool) (st : InitState) :
    Except Panic InitState :=
  if smtp = false then .ok st
  else st.startAndRegister .ProposalSubmittedEmailNotification EventTypeProposalSubmitted

/-- Go `_setupProposalStatusChangeEmailNotification`. -/
def _setupProposalStatusChangeEmailNotification (smtp : Bool) (st : InitState) :
    Except Panic InitState :=
  if smtp = false then .ok st
  else st.startAndRegister .ProposalStatusChangeEmailNotification EventTypeProposalStatusChange

/-- Go `_setupProposalStatusChangeLogging` (no SMTP guard). -/
def _setupProposalStatusChangeLogging (st : InitState) : Except Panic InitState :=
  st.startAndRegister .ProposalStatusChangeLogging EventTypeProposalStatusChange

/-- Go `_setupProposalEditedEmailNotification`. -/
def _setupProposalEditedEmailNotification (smtp : Bool) (st : InitState) :
    Except Panic InitState :=
  if smtp = false then .ok st
  else st.startAndRegister .ProposalEditedEmailNotification EventTypeProposalEdited

/-- Go `_setupProposalVoteStartedEmailNotification`. -/
def _setupProposalVoteStartedEmailNotification (smtp : Bool) (st : InitState) :
    Except Panic InitState :=
  if smtp = false then .ok st
  else st.startAndRegister .ProposalVoteStartedEmailNotification EventTypeProposalVoteStarted

/-- Go `_setupProposalVoteStartedLogging` (no SMTP guard). -/
def _setupProposalVoteStartedLogging (st : InitState) : Except Panic InitState :=
  st.startAndRegister .ProposalVoteStartedLogging EventTypeProposalVoteStarted

/-- Go `_setupProposalVoteAuthorizedEmailNotification`. -/
def _setupProposalVoteAuthorizedEmailNotification (smtp : Bool) (st : InitState) :
    Except Panic InitState :=
  if smtp = false then .ok st
  else st.startAndRegister .ProposalVoteAuthorizedEmailNotification
    EventTypeProposalVoteAuthorized

/-- Go `_setupUserManageLogging` (no SMTP guard). -/
def _setupUserManageLogging (st : InitState) : Except Panic InitState :=
  st.startAndRegister .UserManageLogging EventTypeUserManage

/-- Go `initEventManager`: `b.eventManager = &EventManager{}` followed by the
eight `_setup...` calls in source order. `nextChan` is the identity of the
first channel created. -/
def initEventManager (smtp : Bool) (nextChan : Chan) : Except Panic InitState :=
  let st0 : InitState := ⟨EventManager.zero, [], nextChan⟩
  _setupProposalSubmittedEmailNotification smtp st0 >>= fun st1 =>
  _setupProposalStatusChangeEmailNotification smtp st1 >>= fun st2 =>
  _setupProposalStatusChangeLogging st2 >>= fun st3 =>
  _setupProposalEditedEmailNotification smtp st3 >>= fun st4 =>
  _setupProposalVoteStartedEmailNotification smtp st4 >>= fun st5 =>
  _setupProposalVoteStartedLogging st5 >>= fun st6 =>
  _setupProposalVoteAuthorizedEmailNotification smtp st6 >>= fun st7 =>
  _setupUserManageLogging st7

/-! ## Sequences of bus operations -/

/-- One call on the bus. -/
inductive BusOp (δ : Type) where
  | register (eventType : EventT) (listenerToAdd : Chan)
  | unregister (eventType : EventT) (listenerToRemove : Chan)
  | fireEvent (eventType : EventT) (data : δ)

/-- The bus state after one call. -/
def BusOp.apply {δ : Type} (e : EventManager) : BusOp δ → Except Panic EventManager
  | .register k c => e._register k c
  | .unregister k c => e._unregister k c
  | .fireEvent k d => .ok (e._fireEvent k d).1

/-- The bus state after a sequence of calls, left to right. -/
def BusOp.run {δ : Type} : EventManager → List (BusOp δ) → Except Panic EventManager
  | e, [] => .ok e
  | e, op :: ops =>
    match BusOp.apply e op with
    | .error p => .error p
    | .ok e1 => BusOp.run e1 ops

/-- Every `register` call of the sequence names an endpoint that is not in the
kind's subscriber list at the time of the call. -/
def BusOp.registersFresh {δ : Type} : EventManager → List (BusOp δ) → Prop
  | _, [] => True
  | e, op :: ops =>
    (match op with
      | .register k c => c ∉ e.subscribers k
      | _ => True) ∧
    (match BusOp.apply e op with
      | .error _ => True
      | .ok e1 => BusOp.registersFresh e1 ops)

/-- The state invariant of the spec: no endpoint occurs twice in the
subscriber list of a kind. -/
def EventManager.NoDuplicate (e : EventManager) : Prop :=
  ∀ k : EventT, (e.subscribers k).Nodup

/-! ## Records and collaborators declared outside `events.go`

Only fields that `events.go` reads or writes are kept. A pointer that the file
only reads through (`*database.User`, `*v1.SetProposalStatus`, ...) is an
`Option` of its referent, `none` being nil. `*v1.ProposalRecord` is written
through by `getProposalAuthor`, so it is an address into a heap of records.
-/

/-- Fields of `database.User` read by the handlers. -/
structure User where
  Username : String
  Email : String
  deriving DecidableEq

/-- Go `v1.PropStatusT`, an integer type. -/
abbrev PropStatusT := Int

/-- Fields of `v1.CensorshipRecord` read by the handlers. -/
structure CensorshipRecord where
  Token : String
  deriving DecidableEq

/-- Fields of `v1.ProposalRecord` read or written by `events.go`. -/
structure ProposalRecord where
  Status : PropStatusT
  UserId : String
  PublicKey : String
  CensorshipRecord : CensorshipRecord
  deriving DecidableEq

/-- Fields of `v1.SetProposalStatus` read by the handlers. -/
structure SetProposalStatus where
  ProposalStatus : PropStatusT
  StatusChangeMessage : String
  deriving DecidableEq

/-- Fields of `v1.Vote` read by the handlers. -/
structure Vote where
  Token : String
  deriving DecidableEq

/-- Fields of `v1.StartVote` read by the handlers. -/
structure StartVote where
  Vote : Vote
  deriving DecidableEq

/-- Fields of `v1.AuthorizeVote` read by the handlers. -/
structure AuthorizeVote where
  Token : String
  deriving DecidableEq

/-- Fields of `v1.ManageUser` read by the handlers; both are only passed on
to `logAdminUserAction`. The type of `Action` is declared outside the file; a
string stands for it, as in the spec's scenario (action "lock"). -/
structure ManageUser where
  Action : String
  Reason : String
  deriving DecidableEq

/-- Address of a `v1.ProposalRecord`. -/
abbrev Ptr := Nat

/-- Go `EventDataProposalSubmitted`. -/
structure EventDataProposalSubmitted where
  CensorshipRecord : Option CensorshipRecord
  ProposalName : String
  User : Option User
  deriving DecidableEq

/-- Go `EventDataProposalStatusChange`. -/
structure EventDataProposalStatusChange where
  Proposal : Option Ptr
  SetProposalStatus : Option SetProposalStatus
  AdminUser : Option User
  deriving DecidableEq

/-- Go `EventDataProposalEdited`. -/
structure EventDataProposalEdited where
  Proposal : Option Ptr
  deriving DecidableEq

/-- Go `EventDataProposalVoteStarted`. -/
structure EventDataProposalVoteStarted where
  AdminUser : Option User
  StartVote : Option StartVote
  deriving DecidableEq

/-- Go `EventDataProposalVoteAuthorized`. -/
structure EventDataProposalVoteAuthorized where
  AuthorizeVote : Option AuthorizeVote
  User : Option User
  deriving DecidableEq

/-- Go `EventDataUserManage`. -/
structure EventDataUserManage where
  AdminUser : Option User
  User : Option User
  ManageUser : Option ManageUser
  deriving DecidableEq

/-- A value of type `interface{}` received on a handler channel: one of the
six event-data struct values, or a value of any other dynamic type (the nil
interface and pointers to the structs included), for which every type
assertion `data.(EventData...)` of the file fails. -/
inductive Payload where
  | ProposalSubmitted (d : EventDataProposalSubmitted)
  | ProposalStatusChange (d : EventDataProposalStatusChange)
  | ProposalEdited (d : EventDataProposalEdited)
  | ProposalVoteStarted (d : EventDataProposalVoteStarted)
  | ProposalVoteAuthorized (d : EventDataProposalVoteAuthorized)
  | UserManage (d : EventDataUserManage)
  | otherType (tag : Nat)
  deriving DecidableEq

/-- A parsed `uuid.UUID`. -/
abbrev UUID := String

/-- Handle of a backend `inventoryRecord`; the type is declared outside the file. -/
structure inventoryRecord where
  id : Nat
  deriving DecidableEq

/-- Calls of the mailer and of the audit log; each returns only a Go `error`.
A `*v1.ProposalRecord` argument is recorded as the record it points to at the
time of the call. -/
inductive Call where
  | emailAdminsForNewSubmittedProposal (token name username email : String)
  | emailAuthorForVettedProposal (proposal : ProposalRecord) (author adminUser : Option User)
  | emailUsersForVettedProposal (proposal : ProposalRecord) (author adminUser : Option User)
  | emailAuthorForCensoredProposal (proposal : ProposalRecord) (author adminUser : Option User)
  | emailUsersForEditedProposal (proposal : ProposalRecord) (author : Option User)
  | emailUsersForProposalVoteStarted (proposal : ProposalRecord)
      (author adminUser : Option User)
  | emailAdminsForProposalVoteAuthorized (proposal : ProposalRecord) (user : Option User)
  | logAdminProposalAction (adminUser : Option User) (token action reason : String)
  | logAdminUserAction (adminUser user : Option User) (action reason : String)
  deriving DecidableEq

/-- What a handler step does outside its own variables, in program order:
reads of the backend indexes and of the user database, calls of the mailer and
of the audit log, and `log.Errorf` lines (format string and arguments). -/
inductive Event where
  | userPubkeys (key : String)
  | UserGetById (id : UUID)
  | _getInventoryRecord (token : String)
  | getInventoryRecord (token : String)
  | call (c : Call)
  | Errorf (format : String) (args : List String)
  deriving DecidableEq

/-- The events that reach a collaborator (record store, mailer, audit log):
everything except the local `log.Errorf` lines. -/
def Event.isCollaboratorCall : Event → Bool
  | .Errorf _ _ => false
  | _ => true

/-- The events that are calls of the mailer. -/
def Event.isMail : Event → Bool
  | .call (.logAdminProposalAction _ _ _ _) => false
  | .call (.logAdminUserAction _ _ _ _) => false
  | .call _ => true
  | _ => false

/-- Declarations of package `api/v1` used by the status handlers, taken as
parameters: the two status constants and the name table `v1.PropStatus`
(a Go map read, so the empty string for a status without a name). -/
structure V1 where
  PropStatusPublic : PropStatusT
  PropStatusCensored : PropStatusT
  PropStatus : PropStatusT → String

/-- The collaborators of the handlers, over a state `σ` that only they
change: the public-key index `b.userPubkeys` (a Go map read, the empty string
for an absent key), `uuid.Parse`, `b.db.UserGetById`, the two inventory reads,
the record conversion, and `invoke`, which runs one mailer or audit-log call
and returns its `error` (`none` is nil). -/
structure Backend (σ : Type) where
  userPubkeys : σ → String → String
  uuidParse : String → Except String UUID
  UserGetById : σ → UUID → σ × Except String (Option User)
  _getInventoryRecord : σ → String → σ × Except String inventoryRecord
  getInventoryRecord : σ → String → σ × Except String inventoryRecord
  _convertPropFromInventoryRecord : inventoryRecord → ProposalRecord
  invoke : σ → Call → σ × Option String

/-- The state a handler step runs in: the proposal records reachable through
payload pointers, and the state of the collaborators. -/
structure HState (σ : Type) where
  heap : Ptr → ProposalRecord
  ext : σ

/-- A collaborator call followed by the `if err != nil { log.Errorf(...) }`
that every handler puts after it; `args` are the format arguments before `err`. -/
def Backend.invokeLogged {σ : Type} (b : Backend σ) (ext : σ) (c : Call) (format : String)
    (args : List String) : σ × List Event :=
  match b.invoke ext c with
  | (ext1, none) => (ext1, [.call c])
  | (ext1, some err) => (ext1, [.call c, .Errorf format (args ++ [err])])

/-- Go `getProposalAuthor`, on the record `proposal` points to (the caller
dereferences the pointer and stores the returned record back):
```go
if proposal.UserId == "" { proposal.UserId = b.userPubkeys[proposal.PublicKey] }
userID, err := uuid.Parse(proposal.UserId)
if err != nil { return nil, fmt.Errorf("parse UUID: %v", err) }
return b.db.UserGetById(userID)
```
Result: the record after the call, the collaborator state, the events, and
the returned `(*database.User, error)`. -/
def Backend.getProposalAuthor {σ : Type} (b : Backend σ) (ext : σ) (proposal : ProposalRecord) :
    ProposalRecord × σ × List Event × Except String (Option User) :=
  let filled : ProposalRecord × List Event :=
    if proposal.UserId = "" then
      ({ proposal with UserId := b.userPubkeys ext proposal.PublicKey },
        [.userPubkeys proposal.PublicKey])
    else (proposal, [])
  match b.uuidParse filled.1.UserId with
  | .error err => (filled.1, ext, filled.2, .error ("parse UUID: " ++ err))
  | .ok userID =>
    match b.UserGetById ext userID with
    | (ext1, r) => (filled.1, ext1, filled.2 ++ [.UserGetById userID], r)

/-! ## The handler loops

Each `...Step` is one iteration of the `for data := range ch` loop of the
goroutine started by the `_setup...` function of the same name: the state
after the iteration and the events of the iteration, or the panic that ends
the goroutine. In every handler all dereferences precede the first event of
the iteration, so a panic carries no events. Backend locks are not modelled.
-/

/-- One iteration of the loop of `_setupProposalSubmittedEmailNotification`. -/
def proposalSubmittedEmailNotificationStep {σ : Type} (b : Backend σ) (s : HState σ)
    (data : Payload) : Except Panic (HState σ × List Event) :=
  match data with
  | .ProposalSubmitted ps =>
    match ps.CensorshipRecord, ps.User with
    | some cr, some u =>
      match b.invokeLogged s.ext
          (.emailAdminsForNewSubmittedProposal cr.Token ps.ProposalName u.Username u.Email)
          "email all admins for new submitted proposal %v: %v" [cr.Token] with
      | (ext1, evs) => .ok (⟨s.heap, ext1⟩, evs)
    | _, _ => .error .nilPointerDereference
  | _ => .ok (s, [.Errorf "invalid event data" []])

/-- One iteration of the loop of `_setupProposalStatusChangeEmailNotification`:
type assertion, status filter, `getProposalAuthor(psc.Proposal)`, then the
`switch` on the status. -/
def proposalStatusChangeEmailNotificationStep {σ : Type} (v : V1) (b : Backend σ)
    (s : HState σ) (data : Payload) : Except Panic (HState σ × List Event) :=
  match data with
  | .ProposalStatusChange psc =>
    match psc.SetProposalStatus with
    | none => .error .nilPointerDereference
    | some sps =>
      if sps.ProposalStatus ≠ v.PropStatusPublic ∧
          sps.ProposalStatus ≠ v.PropStatusCensored then .ok (s, [])
      else
        match psc.Proposal with
        | none => .error .nilPointerDereference
        | some ptr =>
          match b.getProposalAuthor s.ext (s.heap ptr) with
          | (p1, ext1, evs1, .error err) =>
            .ok (⟨Function.update s.heap ptr p1, ext1⟩,
              evs1 ++ [.Errorf "cannot fetch author for proposal: %v" [err]])
          | (p1, ext1, evs1, .ok author) =>
            if sps.ProposalStatus = v.PropStatusPublic then
              match b.invokeLogged ext1
                  (.emailAuthorForVettedProposal p1 author psc.AdminUser)
                  "email author for vetted proposal %v: %v" [p1.CensorshipRecord.Token] with
              | (ext2, evs2) =>
                match b.invokeLogged ext2
                    (.emailUsersForVettedProposal p1 author psc.AdminUser)
                    "email users for vetted proposal %v: %v" [p1.CensorshipRecord.Token] with
                | (ext3, evs3) =>
                  .ok (⟨Function.update s.heap ptr p1, ext3⟩, evs1 ++ evs2 ++ evs3)
            else if sps.ProposalStatus = v.PropStatusCensored then
              match b.invokeLogged ext1
                  (.emailAuthorForCensoredProposal p1 author psc.AdminUser)
                  "email author for censored proposal %v: %v" [p1.CensorshipRecord.Token] with
              | (ext2, evs2) => .ok (⟨Function.update s.heap ptr p1, ext2⟩, evs1 ++ evs2)
            else .ok (⟨Function.update s.heap ptr p1, ext1⟩, evs1)
  | _ => .ok (s, [.Errorf "invalid event data" []])

/-- One iteration of the loop of `_setupProposalStatusChangeLogging`. -/
def proposalStatusChangeLoggingStep {σ : Type} (v : V1) (b : Backend σ) (s : HState σ)
    (data : Payload) : Except Panic (HState σ × List Event) :=
  match data with
  | .ProposalStatusChange psc =>
    match psc.Proposal, psc.SetProposalStatus with
    | some ptr, some sps =>
      match b.invokeLogged s.ext
          (.logAdminProposalAction psc.AdminUser (s.heap ptr).CensorshipRecord.Token
            ("set proposal status to " ++ v.PropStatus sps.ProposalStatus)
            sps.StatusChangeMessage)
          "could not log action to file: %v" [] with
      | (ext1, evs) => .ok (⟨s.heap, ext1⟩, evs)
    | _, _ => .error .nilPointerDereference
  | _ => .ok (s, [.Errorf "invalid event data" []])

/-- One iteration of the loop of `_setupProposalEditedEmailNotification`. -/
def proposalEditedEmailNotificationStep {σ : Type} (v : V1) (b : Backend σ) (s : HState σ)
    (data : Payload) : Except Panic (HState σ × List Event) :=
  match data with
  | .ProposalEdited pe =>
    match pe.Proposal with
    | none => .error .nilPointerDereference
    | some ptr =>
      if (s.heap ptr).Status ≠ v.PropStatusPublic then .ok (s, [])
      else
        match b.getProposalAuthor s.ext (s.heap ptr) with
        | (p1, ext1, evs1, .error err) =>
          .ok (⟨Function.update s.heap ptr p1, ext1⟩,
            evs1 ++ [.Errorf "cannot fetch author for proposal: %v" [err]])
        | (p1, ext1, evs1, .ok author) =>
          match b.invokeLogged ext1 (.emailUsersForEditedProposal p1 author)
              "email users for edited proposal %v: %v" [p1.CensorshipRecord.Token] with
          | (ext2, evs2) => .ok (⟨Function.update s.heap ptr p1, ext2⟩, evs1 ++ evs2)
  | _ => .ok (s, [.Errorf "invalid event data" []])

/-- One iteration of the loop of `_setupProposalVoteStartedEmailNotification`;
`proposal` is a local variable there, so `getProposalAuthor(&proposal)` leaves
the heap alone. -/
def proposalVoteStartedEmailNotificationStep {σ : Type} (b : Backend σ) (s : HState σ)
    (data : Payload) : Except Panic (HState σ × List Event) :=
  match data with
  | .ProposalVoteStarted pvs =>
    match pvs.StartVote with
    | none => .error .nilPointerDereference
    | some sv =>
      let token := sv.Vote.Token
      match b._getInventoryRecord s.ext token with
      | (ext1, .error err) =>
        .ok (⟨s.heap, ext1⟩, [._getInventoryRecord token, .Errorf "proposal not found: %v" [err]])
      | (ext1, .ok p) =>
        match b.getProposalAuthor ext1 (b._convertPropFromInventoryRecord p) with
        | (_, ext2, evs2, .error err) =>
          .ok (⟨s.heap, ext2⟩, [._getInventoryRecord token] ++ evs2 ++
            [.Errorf "cannot fetch author for proposal: %v" [err]])
        | (proposal, ext2, evs2, .ok author) =>
          match b.invokeLogged ext2
              (.emailUsersForProposalVoteStarted proposal author pvs.AdminUser)
              "email all admins for new submitted proposal %v: %v" [token] with
          | (ext3, evs3) =>
            .ok (⟨s.heap, ext3⟩, [._getInventoryRecord token] ++ evs2 ++ evs3)
  | _ => .ok (s, [.Errorf "invalid event data" []])

/-- One iteration of the loop of `_setupProposalVoteStartedLogging`. -/
def proposalVoteStartedLoggingStep {σ : Type} (b : Backend σ) (s : HState σ)
    (data : Payload) : Except Panic (HState σ × List Event) :=
  match data with
  | .ProposalVoteStarted pvs =>
    match pvs.StartVote with
    | none => .error .nilPointerDereference
    | some sv =>
      match b.invokeLogged s.ext
          (.logAdminProposalAction pvs.AdminUser sv.Vote.Token "start vote" "")
          "could not log action to file: %v" [] with
      | (ext1, evs) => .ok (⟨s.heap, ext1⟩, evs)
  | _ => .ok (s, [.Errorf "invalid event data" []])

/-- One iteration of the loop of `_setupProposalVoteAuthorizedEmailNotification`. -/
def proposalVoteAuthorizedEmailNotificationStep {σ : Type} (b : Backend σ) (s : HState σ)
    (data : Payload) : Except Panic (HState σ × List Event) :=
  match data with
  | .ProposalVoteAuthorized pvs =>
    match pvs.AuthorizeVote with
    | none => .error .nilPointerDereference
    | some av =>
      let token := av.Token
      match b.getInventoryRecord s.ext token with
      | (ext1, .error err) =>
        .ok (⟨s.heap, ext1⟩, [.getInventoryRecord token, .Errorf "proposal not found: %v" [err]])
      | (ext1, .ok p) =>
        match b.invokeLogged ext1
            (.emailAdminsForProposalVoteAuthorized (b._convertPropFromInventoryRecord p)
              pvs.User)
            "email all admins for new submitted proposal %v: %v" [token] with
        | (ext2, evs2) => .ok (⟨s.heap, ext2⟩, [.getInventoryRecord token] ++ evs2)
  | _ => .ok (s, [.Errorf "invalid event data" []])

/-- One iteration of the loop of `_setupUserManageLogging`. -/
def userManageLoggingStep {σ : Type} (b : Backend σ) (s : HState σ)
    (data : Payload) : Except Panic (HState σ × List Event) :=
  match data with
  | .UserManage ue =>
    match ue.ManageUser with
    | none => .error .nilPointerDereference
    | some mu =>
      match b.invokeLogged s.ext
          (.logAdminUserAction ue.AdminUser ue.User mu.Action mu.Reason)
          "could not log action to file: %v" [] with
      | (ext1, evs) => .ok (⟨s.heap, ext1⟩, evs)
  | _ => .ok (s, [.Errorf "invalid event data" []])

/-- The loop iteration of each handler. -/
def HandlerId.step {σ : Type} (h : HandlerId) (v : V1) (b : Backend σ) (s : HState σ)
    (data : Payload) : Except Panic (HState σ × List Event) :=
  match h with
  | .ProposalSubmittedEmailNotification => proposalSubmittedEmailNotificationStep b s data
  | .ProposalStatusChangeEmailNotification =>
    proposalStatusChangeEmailNotificationStep v b s data
  | .ProposalStatusChangeLogging => proposalStatusChangeLoggingStep v b s data
  | .ProposalEditedEmailNotification => proposalEditedEmailNotificationStep v b s data
  | .ProposalVoteStartedEmailNotification => proposalVoteStartedEmailNotificationStep b s data
  | .ProposalVoteStartedLogging => proposalVoteStartedLoggingStep b s data
  | .ProposalVoteAuthorizedEmailNotification =>
    proposalVoteAuthorizedEmailNotificationStep b s data
  | .UserManageLogging => userManageLoggingStep b s data

/-- The payload variant of the kind a handler is registered for: the type its
loop asserts with `data.(EventData...)`. -/
def HandlerId.expects : HandlerId → Payload → Bool
  | .ProposalSubmittedEmailNotification, .ProposalSubmitted _ => true
  | .ProposalStatusChangeEmailNotification, .ProposalStatusChange _ => true
  | .ProposalStatusChangeLogging, .ProposalStatusChange _ => true
  | .ProposalEditedEmailNotification, .ProposalEdited _ => true
  | .ProposalVoteStartedEmailNotification, .ProposalVoteStarted _ => true
  | .ProposalVoteStartedLogging, .ProposalVoteStarted _ => true
  | .ProposalVoteAuthorizedEmailNotification, .ProposalVoteAuthorized _ => true
  | .UserManageLogging, .UserManage _ => true
  | _, _ => false

/-- Outcome of a handler loop over the payloads received so far. -/
structure LoopResult (σ : Type) where
  state : HState σ
  events : List Event
  panicked : Option Panic

/-- The loop `for data := range ch` of handler `h` over the payloads received
on `ch`, in order of receipt; a panic ends it. -/
def HandlerId.loop {σ : Type} (h : HandlerId) (v : V1) (b : Backend σ) :
    HState σ → List Payload → LoopResult σ
  | s, [] => ⟨s, [], none⟩
  | s, data :: rest =>
    match h.step v b s data with
    | .error p => ⟨s, [], some p⟩
    | .ok (s1, evs) =>
      match HandlerId.loop h v b s1 rest with
      | ⟨s2, evs2, r⟩ => ⟨s2, evs ++ evs2, r⟩

/-- The record at address `a` after a handler step; `none` when the step panicked. -/
def heapAfter {σ : Type} (r : Except Panic (HState σ × List Event)) (a : Ptr) :
    Option ProposalRecord :=
  match r with
  | .error _ => none
  | .ok (s1, _) => some (s1.heap a)

/-- The events of a handler step; `none` when the step panicked. -/
def eventsOf {σ : Type} (r : Except Panic (HState σ × List Event)) : Option (List Event) :=
  match r with
  | .error _ => none
  | .ok (_, evs) => some evs

/-! ## Concrete collaborators for the worked instances -/

/-- Status constants with public = 4 and censored = 3 and their names. -/
def sampleV1 : V1 where
  PropStatusPublic := 4
  PropStatusCensored := 3
  PropStatus := fun st =>
    if st = 4 then "public" else if st = 3 then "censored" else
    if st = 2 then "not reviewed" else ""

/-- The user every lookup of the sample backends returns. -/
def sampleAuthor : User := ⟨"alice", "alice@example.org"⟩

/-- The admin of the worked instances. -/
def sampleAdmin : User := ⟨"A", "admin@example.org"⟩

/-- A stateless backend: the key "pk-alice" is indexed to the id "id-alice",
`uuid.Parse` rejects only the empty string, every user lookup finds
`sampleAuthor`, every inventory lookup finds record 0, and every mailer or
audit-log call returns `err`. -/
def sampleBackend (err : Option String) : Backend Unit where
  userPubkeys := fun _ key => if key = "pk-alice" then "id-alice" else ""
  uuidParse := fun str => if str = "" then .error "invalid UUID length: 0" else .ok str
  UserGetById := fun _ _ => ((), .ok (some sampleAuthor))
  _getInventoryRecord := fun _ _ => ((), .ok ⟨0⟩)
  getInventoryRecord := fun _ _ => ((), .ok ⟨0⟩)
  _convertPropFromInventoryRecord := fun _ => ⟨4, "id-alice", "pk-alice", ⟨"abc123"⟩⟩
  invoke := fun _ _ => ((), err)

/-- A heap whose every record is public, has token "abc123", public key
"pk-alice" and an empty `UserId`. -/
def sampleState : HState Unit := ⟨fun _ => ⟨4, "", "pk-alice", ⟨"abc123"⟩⟩, ()⟩

/-- A status change to `status` of the proposal at address 0 by `sampleAdmin`
with message "spam". -/
def sampleStatusChange (status : PropStatusT) : EventDataProposalStatusChange :=
  ⟨some 0, some ⟨status, "spam"⟩, some sampleAdmin⟩

/-- Number of spawned goroutines that send on channel `c`. -/
def Delivery.countTo {δ : Type} (ts : List (Delivery δ)) (c : Chan) : Nat :=
  ts.countP (fun t => decide (t.listener = c))

/-- The goroutines spawned by `_fireEvent k d` on the state reached from the
zero-value manager by `ops`; `none` when a call of `ops` panics. -/
def firedAfter {δ : Type} (ops : List (BusOp δ)) (k : EventT) (d : δ) :
    Option (List (Delivery δ)) :=
  match BusOp.run EventManager.zero ops with
  | .error _ => none
  | .ok e => some (e._fireEvent k d).2

/-! ## Lemmas about the bus -/

theorem mapGet_mapAssign_ok (f : EventT → Option (List Chan)) (k k1 : EventT) (v : List Chan) :
    mapGet (some (Function.update f k (some v))) k1 = if k1 = k then some v else f k1 := by
  unfold mapGet
  by_cases h : k1 = k
  · subst h; simp
  · simp [h]

theorem search_none (c : Chan) (l : List Chan) (i : Nat) :
    EventManager._unregister.search c l i = none ↔ c ∉ l := by
  induction l generalizing i with
  | nil => simp [EventManager._unregister.search]
  | cons a l ih =>
    unfold EventManager._unregister.search
    by_cases h : a = c
    · simp [h]
    · simp only [h, if_false, ih, List.mem_cons]
      constructor
      · intro hc hor
        rcases hor with hor | hor
        · exact h hor.symm
        · exact hc hor
      · intro hc hin
        exact hc (Or.inr hin)

theorem search_some (c : Chan) (l : List Chan) (i j : Nat)
    (h : EventManager._unregister.search c l i = some j) :
    ∃ n, j = i + n ∧ n < l.length ∧ l.take n ++ l.drop (n + 1) = l.erase c := by
  induction l generalizing i with
  | nil => simp [EventManager._unregister.search] at h
  | cons a l ih =>
    unfold EventManager._unregister.search at h
    by_cases hac : a = c
    · simp only [hac, if_true, Option.some.injEq] at h
      refine ⟨0, by omega, by simp, ?_⟩
      subst hac
      simp
    · simp only [hac, if_false] at h
      obtain ⟨n, hn, hlt, heq⟩ := ih (i + 1) h
      refine ⟨n + 1, by omega, by simp; omega, ?_⟩
      have hne : (a == c) = false := by simpa using hac
      simp [List.erase_cons, hne, heq]

/-- What `_register` returns: never a panic, and the map with the key bound to
the old list followed by the new channel. -/
theorem register_eq (e : EventManager) (k : EventT) (c : Chan) :
    e._register k c =
      .ok ⟨some (Function.update (e.Listeners.getD (fun _ => none)) k
        (some (e.subscribers k ++ [c])))⟩ := by
  obtain ⟨m⟩ := e
  cases m with
  | none => simp [EventManager._register, mapGet, mapAssign, EventManager.subscribers]
  | some f =>
    cases hk : f k with
    | none => simp [EventManager._register, mapGet, mapAssign, EventManager.subscribers, hk]
    | some cur =>
      simp [EventManager._register, mapGet, mapAssign, EventManager.subscribers, hk]

/-- What `_unregister` returns: never a panic; the same state when the channel
is not subscribed, else the map with the first occurrence erased. -/
theorem unregister_eq (e : EventManager) (k : EventT) (c : Chan) :
    e._unregister k c =
      .ok (if c ∈ e.subscribers k then
        ⟨e.Listeners.map (fun f => Function.update f k (some ((e.subscribers k).erase c)))⟩
      else e) := by
  obtain ⟨m⟩ := e
  cases m with
  | none => simp [EventManager._unregister, mapGet, EventManager.subscribers]
  | some f =>
    cases hk : f k with
    | none => simp [EventManager._unregister, mapGet, EventManager.subscribers, hk]
    | some cur =>
      cases hs : EventManager._unregister.search c cur 0 with
      | none =>
        have hnot : c ∉ cur := (search_none c cur 0).1 hs
        simp [EventManager._unregister, mapGet, EventManager.subscribers, hk, hs, hnot]
      | some i =>
        obtain ⟨n, hn, hlt, heq⟩ := search_some c cur 0 i hs
        have hin : c ∈ cur := by
          by_contra hc
          rw [(search_none c cur 0).2 hc] at hs
          exact Option.noConfusion hs
        have hi : i = n := by omega
        subst hi
        have h1 : i ≤ cur.length := by omega
        have h2 : i + 1 ≤ cur.length := by omega
        simp [EventManager._unregister, mapGet, EventManager.subscribers, hk, hs, hin,
          sliceTo, sliceFrom, h1, h2, mapAssign, heq]

theorem subscribers_register (e : EventManager) (k k1 : EventT) (c : Chan) (e1 : EventManager)
    (h : e._register k c = .ok e1) :
    e1.subscribers k1 = if k1 = k then e.subscribers k ++ [c] else e.subscribers k1 := by
  rw [register_eq] at h
  injection h with h
  subst h
  unfold EventManager.subscribers
  rw [mapGet_mapAssign_ok]
  by_cases hk : k1 = k
  · simp [hk]
  · simp only [hk, if_false]
    obtain ⟨m⟩ := e
    cases m <;> simp [mapGet]

theorem subscribers_unregister (e : EventManager) (k k1 : EventT) (c : Chan)
    (e1 : EventManager) (h : e._unregister k c = .ok e1) :
    e1.subscribers k1 = if k1 = k then (e.subscribers k).erase c else e.subscribers k1 := by
  rw [unregister_eq] at h
  injection h with h
  subst h
  by_cases hin : c ∈ e.subscribers k
  · simp only [hin, if_true]
    obtain ⟨m⟩ := e
    cases m with
    | none => simp [EventManager.subscribers, mapGet] at hin
    | some f =>
      simp only [Option.map_some']
      unfold EventManager.subscribers
      rw [mapGet_mapAssign_ok]
      by_cases hk : k1 = k
      · simp [hk]
      · simp [hk, mapGet]
  · simp only [hin, if_false]
    by_cases hk : k1 = k
    · subst hk
      simp [List.erase_of_not_mem hin]
    · simp [hk]

theorem fireEvent_eq {δ : Type} (e : EventManager) (k : EventT) (d : δ) :
    e._fireEvent k d = (e, (e.subscribers k).map (fun c => ⟨c, d⟩)) := by
  unfold EventManager._fireEvent EventManager.subscribers
  cases mapGet e.Listeners k <;> simp

theorem countTo_map {δ : Type} (l : List Chan) (d : δ) (c : Chan) :
    Delivery.countTo (l.map (fun x => (⟨x, d⟩ : Delivery δ))) c = l.count c := by
  induction l with
  | nil => rfl
  | cons a l ih =>
    unfold Delivery.countTo at ih ⊢
    by_cases h : a = c
    · simp [List.countP_cons, List.count_cons, h, ih]
    · simp [List.countP_cons, List.count_cons, h, ih]

theorem noDuplicate_zero : EventManager.zero.NoDuplicate := by
  intro k
  simp [EventManager.zero, EventManager.subscribers, mapGet]

theorem noDuplicate_register (e : EventManager) (k : EventT) (c : Chan) (e1 : EventManager)
    (hinv : e.NoDuplicate) (hfresh : c ∉ e.subscribers k) (h : e._register k c = .ok e1) :
    e1.NoDuplicate := by
  intro k1
  rw [subscribers_register e k k1 c e1 h]
  by_cases hk : k1 = k
  · simp only [hk, if_true]
    rw [List.nodup_append]
    refine ⟨hinv k, List.nodup_singleton c, ?_⟩
    intro a ha hb
    rw [List.mem_singleton] at hb
    subst hb
    exact hfresh ha
  · simp only [hk, if_false]
    exact hinv k1

theorem noDuplicate_unregister (e : EventManager) (k : EventT) (c : Chan) (e1 : EventManager)
    (hinv : e.NoDuplicate) (h : e._unregister k c = .ok e1) : e1.NoDuplicate := by
  intro k1
  rw [subscribers_unregister e k k1 c e1 h]
  by_cases hk : k1 = k
  · simp only [hk, if_true]
    exact (hinv k).erase c
  · simp only [hk, if_false]
    exact hinv k1

theorem noDuplicate_run {δ : Type} (ops : List (BusOp δ)) (e : EventManager)
    (hinv : e.NoDuplicate) (hfresh : BusOp.registersFresh e ops) :
    ∃ e1, BusOp.run e ops = .ok e1 ∧ e1.NoDuplicate := by
  induction ops generalizing e with
  | nil => exact ⟨e, rfl, hinv⟩
  | cons op ops ih =>
    obtain ⟨hop, hrest⟩ := hfresh
    cases op with
    | register k c =>
      have hreg := register_eq e k c
      simp only [BusOp.apply, hreg] at hrest
      obtain ⟨e2, hrun, hinv2⟩ := ih _ (noDuplicate_register e k c _ hinv hop hreg) hrest
      exact ⟨e2, by simp only [BusOp.run, BusOp.apply, hreg, hrun], hinv2⟩
    | unregister k c =>
      have hun := unregister_eq e k c
      simp only [BusOp.apply, hun] at hrest
      obtain ⟨e2, hrun, hinv2⟩ := ih _ (noDuplicate_unregister e k c _ hinv hun) hrest
      exact ⟨e2, by simp only [BusOp.run, BusOp.apply, hun, hrun], hinv2⟩
    | fireEvent k d =>
      simp only [BusOp.apply, fireEvent_eq] at hrest
      obtain ⟨e2, hrun, hinv2⟩ := ih e hinv hrest
      exact ⟨e2, by simp only [BusOp.run, BusOp.apply, fireEvent_eq, hrun], hinv2⟩

/-! ## The bus: register, unregister, fire -/

/-- C1: `_fireEvent k d` spawns, in list order, one goroutine per entry of the
subscriber list of `k`, each sending the unchanged `d`; so the multiset of
targets is the multiset of that list and the number of deliveries to a channel
is its number of occurrences; a channel subscribed only under another kind
gets none; and the manager is returned as it was. -/
theorem C1_fireEvent_delivers_to_subscribers {δ : Type} (e : EventManager) (k : EventT)
    (d : δ) :
    (e._fireEvent k d).2 = (e.subscribers k).map (fun c => (⟨c, d⟩ : Delivery δ))
    ∧ (((e._fireEvent k d).2.map Delivery.listener : List Chan) : Multiset Chan)
        = (e.subscribers k : Multiset Chan)
    ∧ (∀ c : Chan, Delivery.countTo (e._fireEvent k d).2 c = (e.subscribers k).count c)
    ∧ (∀ t ∈ (e._fireEvent k d).2, t.data = d)
    ∧ (∀ (c : Chan) (k1 : EventT), k1 ≠ k → c ∈ e.subscribers k1 → c ∉ e.subscribers k →
        ∀ t ∈ (e._fireEvent k d).2, t.listener ≠ c)
    ∧ (e._fireEvent k d).1 = e
    ∧ (e._fireEvent k d).1.Listeners = e.Listeners := by
  rw [fireEvent_eq]
  refine ⟨rfl, ?_, ?_, ?_, ?_, rfl, rfl⟩
  · simp [List.map_map, Function.comp_def]
  · intro c
    exact countTo_map _ d c
  · intro t ht
    simp only [List.mem_map] at ht
    obtain ⟨c, _, rfl⟩ := ht
    rfl
  · intro c k1 _ _ hnot t ht hc
    simp only [List.mem_map] at ht
    obtain ⟨c1, hc1, rfl⟩ := ht
    exact hnot (hc ▸ hc1)

/-- C1, on a bus with channels 7, 8, 7 under kind 2 and channel 9 under kind 3. -/
theorem C1_fireEvent_witness :
    (((⟨some (fun k => if k = 2 then some [7, 8, 7] else if k = 3 then some [9] else none)⟩ :
        EventManager)._fireEvent 2 "d").2
      = [⟨7, "d"⟩, ⟨8, "d"⟩, ⟨7, "d"⟩])
    ∧ ∀ t ∈ ((⟨some (fun k => if k = 2 then some [7, 8, 7] else if k = 3 then some [9]
        else none)⟩ : EventManager)._fireEvent 2 "d").2, t.listener ≠ 9 :=
  ⟨by decide,
   (C1_fireEvent_delivers_to_subscribers
      ⟨some (fun k => if k = 2 then some [7, 8, 7] else if k = 3 then some [9] else none)⟩
      2 "d").2.2.2.2.1 9 3 (by decide) (by decide) (by decide)⟩

/-- C2: `_unregister k c` returns without a panic; the list of `k` becomes the
old list with the first occurrence of `c` cut out (the entries before and
after it keep their order) and the key stays present or absent as before;
when `c` is not in the list of `k` (in particular when `k` has no subscribers)
the state is the same; every other key reads as before. -/
theorem C2_unregister_removes_first_occurrence (e : EventManager) (k : EventT) (c : Chan) :
    ∃ e1, e._unregister k c = .ok e1
      ∧ e1.subscribers k = (e.subscribers k).erase c
      ∧ mapGet e1.Listeners k = (mapGet e.Listeners k).map (fun l => l.erase c)
      ∧ (c ∈ e.subscribers k → ∃ front back, e.subscribers k = front ++ c :: back
          ∧ c ∉ front ∧ e1.subscribers k = front ++ back)
      ∧ (c ∉ e.subscribers k → e1 = e)
      ∧ (∀ k1, k1 ≠ k → mapGet e1.Listeners k1 = mapGet e.Listeners k1)
      ∧ (∀ k1, k1 ≠ k → e1.subscribers k1 = e.subscribers k1) := by
  have hun := unregister_eq e k c
  refine ⟨_, hun, ?_, ?_, ?_, ?_, ?_, ?_⟩
  · simpa using subscribers_unregister e k k c _ hun
  · by_cases hin : c ∈ e.subscribers k
    · simp only [hin, if_true]
      obtain ⟨m⟩ := e
      cases m with
      | none => simp [EventManager.subscribers, mapGet] at hin
      | some f =>
        simp only [Option.map_some']
        rw [mapGet_mapAssign_ok]
        cases hk : f k with
        | none => simp [EventManager.subscribers, mapGet, hk] at hin
        | some cur => simp [EventManager.subscribers, mapGet, hk]
    · simp only [hin, if_false]
      unfold EventManager.subscribers at hin
      cases hk : mapGet e.Listeners k with
      | none => rfl
      | some cur =>
        rw [hk] at hin
        simp only [Option.getD_some] at hin
        simp [List.erase_of_not_mem hin]
  · intro hin
    obtain ⟨front, back, hnot, hsplit, herase⟩ := List.exists_erase_eq hin
    refine ⟨front, back, hsplit, hnot, ?_⟩
    rw [subscribers_unregister e k k c _ hun]
    simpa using herase
  · intro hnot
    simp [hnot]
  · intro k1 hk
    by_cases hin : c ∈ e.subscribers k
    · simp only [hin, if_true]
      obtain ⟨m⟩ := e
      cases m with
      | none => rfl
      | some f =>
        simp only [Option.map_some']
        rw [mapGet_mapAssign_ok]
        simp [hk, mapGet]
    · simp [hin]
  · intro k1 hk
    simpa [hk] using subscribers_unregister e k k1 c _ hun

/-- C2, on the list 7, 8, 7 under kind 2 (the first 7 goes, 8 and the second
7 stay in order) and on the zero-value manager (nothing to remove). -/
theorem C2_unregister_witness :
    firedAfter [.register 2 7, .register 2 8, .register 2 7, .unregister 2 7] 2 "d"
      = some [⟨8, "d"⟩, ⟨7, "d"⟩]
    ∧ ∃ e1, EventManager.zero._unregister 2 7 = .ok e1 ∧ e1 = EventManager.zero := by
  refine ⟨by decide, ?_⟩
  obtain ⟨e1, h1, _, _, _, h, _⟩ := C2_unregister_removes_first_occurrence EventManager.zero 2 7
  exact ⟨e1, h1, h (by decide)⟩

/-- C3: `_register k c` returns without a panic on every state, the nil map
included; the list of `k` becomes the old list followed by `c`, every other
key reads as before; registering `c` a second time puts a second `c` at the
end, so a following `_fireEvent k d` spawns two more deliveries to `c` than
the old list had occurrences of `c` (exactly two when `c` was not subscribed
before), each carrying `d`. -/
theorem C3_register_appends_and_duplicates {δ : Type} (e : EventManager) (k : EventT)
    (c : Chan) (d : δ) :
    ∃ e1 e2, e._register k c = .ok e1 ∧ e1._register k c = .ok e2
      ∧ e1.subscribers k = e.subscribers k ++ [c]
      ∧ (∀ k1, k1 ≠ k → mapGet e1.Listeners k1 = mapGet e.Listeners k1)
      ∧ (∀ k1, k1 ≠ k → e1.subscribers k1 = e.subscribers k1)
      ∧ e2.subscribers k = e.subscribers k ++ [c, c]
      ∧ (e2.subscribers k).count c = (e.subscribers k).count c + 2
      ∧ Delivery.countTo (e2._fireEvent k d).2 c = (e.subscribers k).count c + 2
      ∧ (∀ t ∈ (e2._fireEvent k d).2, t.data = d)
      ∧ (c ∉ e.subscribers k →
          (e2.subscribers k).count c = 2 ∧ Delivery.countTo (e2._fireEvent k d).2 c = 2) := by
  have h1 := register_eq e k c
  generalize he1 : (⟨some (Function.update (e.Listeners.getD (fun _ => none)) k
    (some (e.subscribers k ++ [c])))⟩ : EventManager) = e1 at h1
  have h2 := register_eq e1 k c
  generalize he2 : (⟨some (Function.update (e1.Listeners.getD (fun _ => none)) k
    (some (e1.subscribers k ++ [c])))⟩ : EventManager) = e2 at h2
  have hs1 : e1.subscribers k = e.subscribers k ++ [c] := by
    simpa using subscribers_register e k k c e1 h1
  have hs2 : e2.subscribers k = e.subscribers k ++ [c, c] := by
    have h := subscribers_register e1 k k c e2 h2
    simp only [if_true] at h
    rw [h, hs1]
    simp
  refine ⟨e1, e2, h1, h2, hs1, ?_, ?_, hs2, ?_, ?_, ?_, ?_⟩
  · intro k1 hk
    subst he1
    rw [mapGet_mapAssign_ok]
    obtain ⟨m⟩ := e
    cases m <;> simp [hk, mapGet]
  · intro k1 hk
    simpa [hk] using subscribers_register e k k1 c e1 h1
  · rw [hs2]
    simp
  · rw [fireEvent_eq, countTo_map, hs2]
    simp
  · intro t ht
    rw [fireEvent_eq] at ht
    simp only [List.mem_map] at ht
    obtain ⟨c1, _, rfl⟩ := ht
    rfl
  · intro hnot
    rw [fireEvent_eq, countTo_map, hs2]
    simp [List.count_eq_zero_of_not_mem hnot]

/-- C3, on the zero-value manager (nil `Listeners`): two registrations of
channel 7 under kind 2, then a fire. -/
theorem C3_register_witness :
    firedAfter [.register 2 7, .register 2 7] 2 "d" = some [⟨7, "d"⟩, ⟨7, "d"⟩]
    ∧ ∃ e1 e2, EventManager.zero._register 2 7 = .ok e1 ∧ e1._register 2 7 = .ok e2
      ∧ (e2.subscribers 2).count 7 = 2
      ∧ Delivery.countTo (e2._fireEvent 2 "d").2 7 = 2 := by
  refine ⟨by decide, ?_⟩
  obtain ⟨e1, e2, h1, h2, _, _, _, _, _, _, _, h⟩ :=
    C3_register_appends_and_duplicates EventManager.zero 2 7 "d"
  exact ⟨e1, e2, h1, h2, h (by decide)⟩

/-- C4 as stated fails: channel 7 is registered twice under kind 2 and
unregistered once; the fire that follows still spawns a delivery to 7. -/
theorem C4_counterexample :
    firedAfter [.register 2 7, .register 2 7, .unregister 2 7] 2 "d" = some [⟨7, "d"⟩] := by
  decide

/-- C4 (amended): after `_unregister k c`, `_fireEvent k d` spawns one
delivery to `c` fewer than it would have before (none when `c` occurred at
most once in the list of `k`), and for every other channel the same number as
before. -/
theorem C4_unregister_then_fire {δ : Type} (e : EventManager) (k : EventT) (c : Chan)
    (d : δ) :
    ∃ e1, e._unregister k c = .ok e1
      ∧ Delivery.countTo (e1._fireEvent k d).2 c
          = Delivery.countTo (e._fireEvent k d).2 c - 1
      ∧ ((e.subscribers k).count c ≤ 1 →
          Delivery.countTo (e1._fireEvent k d).2 c = 0
          ∧ ∀ t ∈ (e1._fireEvent k d).2, t.listener ≠ c)
      ∧ (∀ c1, c1 ≠ c → Delivery.countTo (e1._fireEvent k d).2 c1
          = Delivery.countTo (e._fireEvent k d).2 c1) := by
  have hun := unregister_eq e k c
  have hs := subscribers_unregister e k k c _ hun
  simp only [if_true] at hs
  refine ⟨_, hun, ?_, ?_, ?_⟩
  · rw [fireEvent_eq, fireEvent_eq, countTo_map, countTo_map, hs, List.count_erase_self]
  · intro hle
    have hz : ((e.subscribers k).erase c).count c = 0 := by
      rw [List.count_erase_self]; omega
    refine ⟨by rw [fireEvent_eq, countTo_map, hs]; exact hz, ?_⟩
    intro t ht hc
    rw [fireEvent_eq] at ht
    simp only [List.mem_map] at ht
    obtain ⟨c1, hc1, rfl⟩ := ht
    rw [hs] at hc1
    have hc1c : c1 = c := hc
    subst hc1c
    exact (List.count_eq_zero.1 hz) hc1
  · intro c1 hne
    rw [fireEvent_eq, fireEvent_eq, countTo_map, countTo_map, hs,
      List.count_erase_of_ne hne]

/-- C4 (amended), on a bus with channels 7 and 8 under kind 2. -/
theorem C4_unregister_then_fire_witness :
    firedAfter [.register 2 7, .register 2 8, .unregister 2 7] 2 "d" = some [⟨8, "d"⟩]
    ∧ ∃ e1, (⟨some (fun k => if k = 2 then some [7, 8] else none)⟩ :
          EventManager)._unregister 2 7 = .ok e1
        ∧ Delivery.countTo (e1._fireEvent 2 "d").2 7 = 0 := by
  refine ⟨by decide, ?_⟩
  obtain ⟨e1, h1, _, h, _⟩ := C4_unregister_then_fire
    ⟨some (fun k => if k = 2 then some [7, 8] else none)⟩ 2 7 "d"
  exact ⟨e1, h1, (h (by decide)).1⟩

/-- C5 as stated fails: the zero-value manager satisfies the invariant, and so
does the state after registering channel 7 under kind 2, but registering 7
under kind 2 once more yields a state that violates it. -/
theorem C5_counterexample :
    EventManager.zero.NoDuplicate
    ∧ ∃ e1 e2, EventManager.zero._register 2 7 = .ok e1 ∧ e1.NoDuplicate
      ∧ e1._register 2 7 = .ok e2 ∧ ¬ e2.NoDuplicate := by
  refine ⟨noDuplicate_zero, _, _, register_eq _ 2 7, ?_, register_eq _ 2 7, ?_⟩
  · exact noDuplicate_register _ 2 7 _ noDuplicate_zero (by decide) (register_eq _ 2 7)
  · intro h
    have h2 := h 2
    revert h2
    decide

/-- C5 (amended): the invariant holds for the zero-value manager and is kept
by `_unregister` and `_fireEvent` for all arguments and by `_register k c`
when `c` is not already in the list of `k`; hence it holds after every
sequence of calls, from any state that satisfies it, in which each `register`
names a channel not subscribed to that kind at the time. -/
theorem C5_noDuplicate_preserved {δ : Type} :
    EventManager.zero.NoDuplicate
    ∧ (∀ (e : EventManager) (k : EventT) (c : Chan), e.NoDuplicate →
        ∃ e1, e._unregister k c = .ok e1 ∧ e1.NoDuplicate)
    ∧ (∀ (e : EventManager) (k : EventT) (d : δ), e.NoDuplicate →
        (e._fireEvent k d).1.NoDuplicate)
    ∧ (∀ (e : EventManager) (k : EventT) (c : Chan), e.NoDuplicate → c ∉ e.subscribers k →
        ∃ e1, e._register k c = .ok e1 ∧ e1.NoDuplicate)
    ∧ (∀ (e : EventManager) (ops : List (BusOp δ)), e.NoDuplicate →
        BusOp.registersFresh e ops → ∃ e1, BusOp.run e ops = .ok e1 ∧ e1.NoDuplicate) := by
  refine ⟨noDuplicate_zero, ?_, ?_, ?_, ?_⟩
  · intro e k c hinv
    exact ⟨_, unregister_eq e k c, noDuplicate_unregister e k c _ hinv (unregister_eq e k c)⟩
  · intro e k d hinv
    rw [fireEvent_eq]
    exact hinv
  · intro e k c hinv hfresh
    exact ⟨_, register_eq e k c, noDuplicate_register e k c _ hinv hfresh (register_eq e k c)⟩
  · intro e ops hinv hfresh
    exact noDuplicate_run ops e hinv hfresh

/-- C5 (amended), on a sequence from the zero-value manager that registers
channel 7 for kind 2 again only after it was unregistered. -/
theorem C5_noDuplicate_witness :
    ∃ e1, BusOp.run EventManager.zero
        [.register 2 7, .register 2 8, .fireEvent 2 "d", .unregister 2 7, .register 2 7]
          = .ok e1
      ∧ e1.NoDuplicate :=
  (@C5_noDuplicate_preserved String).2.2.2.2 EventManager.zero
    [.register 2 7, .register 2 8, .fireEvent 2 "d", .unregister 2 7, .register 2 7]
    noDuplicate_zero (by
      simp only [BusOp.registersFresh, BusOp.apply, register_eq, unregister_eq, fireEvent_eq]
      decide)

/-- What `initEventManager` returns when `cfg.SMTP` is nil: only the three
logging handlers are started and registered. -/
theorem initEventManager_unconfigured (n : Chan) :
    initEventManager false n =
      .ok ⟨⟨some (Function.update (Function.update (Function.update (fun _ => none)
              EventTypeProposalStatusChange (some [n]))
              EventTypeProposalVoteStarted (some [n + 1]))
              EventTypeUserManage (some [n + 2]))⟩,
        [(n, .ProposalStatusChangeLogging), (n + 1, .ProposalVoteStartedLogging),
          (n + 2, .UserManageLogging)],
        n + 3⟩ := by
  simp [initEventManager, _setupProposalSubmittedEmailNotification,
    _setupProposalStatusChangeEmailNotification, _setupProposalStatusChangeLogging,
    _setupProposalEditedEmailNotification, _setupProposalVoteStartedEmailNotification,
    _setupProposalVoteStartedLogging, _setupProposalVoteAuthorizedEmailNotification,
    _setupUserManageLogging, InitState.startAndRegister, register_eq, bind, Except.bind,
    EventManager.zero, EventManager.subscribers, mapGet, EventTypeProposalStatusChange,
    EventTypeProposalVoteStarted, EventTypeUserManage, Function.update]

/-- C7: with `cfg.SMTP` nil, `initEventManager` returns without a panic, the
keys `EventTypeProposalSubmitted`, `EventTypeProposalEdited` and
`EventTypeProposalVoteAuthorized` are absent from `Listeners` (their
subscriber lists are empty) while the logging handlers are registered, and
`_fireEvent EventTypeProposalSubmitted d` spawns nothing and changes nothing;
on every state, firing a kind whose list is absent or empty spawns nothing,
for instance after the only channel of the kind was unregistered. -/
theorem C7_fire_without_subscribers {δ : Type} (n : Chan) (d : δ) :
    (∃ st, initEventManager false n = .ok st
      ∧ mapGet st.eventManager.Listeners EventTypeProposalSubmitted = none
      ∧ st.eventManager.subscribers EventTypeProposalSubmitted = []
      ∧ st.eventManager.subscribers EventTypeProposalEdited = []
      ∧ st.eventManager.subscribers EventTypeProposalVoteAuthorized = []
      ∧ st.eventManager.subscribers EventTypeProposalStatusChange = [n]
      ∧ st.started = [(n, .ProposalStatusChangeLogging), (n + 1, .ProposalVoteStartedLogging),
          (n + 2, .UserManageLogging)]
      ∧ st.eventManager._fireEvent EventTypeProposalSubmitted d = (st.eventManager, []))
    ∧ (∀ (e : EventManager) (k : EventT), mapGet e.Listeners k = none →
        e._fireEvent k d = (e, []))
    ∧ (∀ (e : EventManager) (k : EventT), e.subscribers k = [] → e._fireEvent k d = (e, []))
    ∧ (∀ (e : EventManager) (k : EventT) (c : Chan), e.subscribers k = [c] →
        ∃ e1, e._unregister k c = .ok e1 ∧ e1.subscribers k = []
          ∧ e1._fireEvent k d = (e1, [])) := by
  refine ⟨⟨_, initEventManager_unconfigured n, ?_, ?_, ?_, ?_, ?_, rfl, ?_⟩, ?_, ?_, ?_⟩
  · simp [mapGet, Function.update, EventTypeProposalSubmitted, EventTypeProposalStatusChange,
      EventTypeProposalVoteStarted, EventTypeUserManage]
  · simp [EventManager.subscribers, mapGet, Function.update, EventTypeProposalSubmitted,
      EventTypeProposalStatusChange, EventTypeProposalVoteStarted, EventTypeUserManage]
  · simp [EventManager.subscribers, mapGet, Function.update, EventTypeProposalEdited,
      EventTypeProposalStatusChange, EventTypeProposalVoteStarted, EventTypeUserManage]
  · simp [EventManager.subscribers, mapGet, Function.update, EventTypeProposalVoteAuthorized,
      EventTypeProposalStatusChange, EventTypeProposalVoteStarted, EventTypeUserManage]
  · simp [EventManager.subscribers, mapGet, Function.update,
      EventTypeProposalStatusChange, EventTypeProposalVoteStarted, EventTypeUserManage]
  · rw [fireEvent_eq]
    simp [EventManager.subscribers, mapGet, Function.update, EventTypeProposalSubmitted,
      EventTypeProposalStatusChange, EventTypeProposalVoteStarted, EventTypeUserManage]
  · intro e k h
    rw [fireEvent_eq]
    simp [EventManager.subscribers, h]
  · intro e k h
    rw [fireEvent_eq, h]
    rfl
  · intro e k c h
    have hun := unregister_eq e k c
    generalize (if c ∈ e.subscribers k then
        (⟨e.Listeners.map (fun f => Function.update f k (some ((e.subscribers k).erase c)))⟩ :
          EventManager)
      else e) = e1 at hun
    have hs := subscribers_unregister e k k c e1 hun
    simp only [if_true, h, List.erase_cons_head] at hs
    refine ⟨e1, hun, hs, ?_⟩
    rw [fireEvent_eq, hs]
    rfl

/-- C7, on the state reached by registering channel 7 under kind 2 and
unregistering it; and `initEventManager` with mail unconfigured, first
channel 0. -/
theorem C7_fire_without_subscribers_witness :
    firedAfter [.register 2 7, .unregister 2 7] 2 "d" = some []
    ∧ ∃ st, initEventManager false 0 = .ok st
        ∧ st.eventManager._fireEvent EventTypeProposalSubmitted "d" = (st.eventManager, []) := by
  refine ⟨by decide, ?_⟩
  obtain ⟨⟨st, h1, _, _, _, _, _, _, h2⟩, _⟩ := C7_fire_without_subscribers 0 "d"
  exact ⟨st, h1, h2⟩

/-! ## Lemmas about the handlers -/

theorem getProposalAuthor_record {σ : Type} (b : Backend σ) (ext : σ) (p : ProposalRecord) :
    (b.getProposalAuthor ext p).1 = p
    ∨ (p.UserId = "" ∧
        (b.getProposalAuthor ext p).1 = { p with UserId := b.userPubkeys ext p.PublicKey }) := by
  unfold Backend.getProposalAuthor
  by_cases h : p.UserId = ""
  · right
    refine ⟨h, ?_⟩
    simp only [h, if_true]
    split <;> rfl
  · left
    simp only [h, if_false]
    split <;> rfl

theorem invokeLogged_events {σ : Type} (b : Backend σ) (ext : σ) (c : Call) (format : String)
    (args : List String) :
    (b.invokeLogged ext c format args).2 = [.call c]
    ∨ ∃ err, (b.invokeLogged ext c format args).2 = [.call c, .Errorf format (args ++ [err])] := by
  unfold Backend.invokeLogged
  split
  · left; rfl
  · right; exact ⟨_, rfl⟩

theorem getProposalAuthor_fst {σ : Type} (b : Backend σ) (ext : σ) (p : ProposalRecord) :
    (b.getProposalAuthor ext p).1
      = if p.UserId = "" then { p with UserId := b.userPubkeys ext p.PublicKey } else p := by
  unfold Backend.getProposalAuthor
  by_cases h : p.UserId = ""
  · simp only [h, if_true]
    split <;> rfl
  · simp only [h, if_false]
    split <;> rfl

/-- Past its status filter and with a proposal, the step of the status-change
email handler returns, and the heap is the old one with the record after
`getProposalAuthor` stored at the payload's address. -/
theorem statusChangeEmail_writes {σ : Type} (v : V1) (b : Backend σ) (s : HState σ)
    (psc : EventDataProposalStatusChange) (sps : SetProposalStatus) (ptr : Ptr)
    (hs : psc.SetProposalStatus = some sps) (hp : psc.Proposal = some ptr)
    (hst : sps.ProposalStatus = v.PropStatusPublic
      ∨ sps.ProposalStatus = v.PropStatusCensored) :
    ∃ s1 evs, proposalStatusChangeEmailNotificationStep v b s (.ProposalStatusChange psc)
        = .ok (s1, evs)
      ∧ s1.heap = Function.update s.heap ptr (b.getProposalAuthor s.ext (s.heap ptr)).1 := by
  have hf : ¬ (sps.ProposalStatus ≠ v.PropStatusPublic
      ∧ sps.ProposalStatus ≠ v.PropStatusCensored) := by
    intro hh
    rcases hst with h1 | h1
    · exact hh.1 h1
    · exact hh.2 h1
  rcases hga : b.getProposalAuthor s.ext (s.heap ptr) with ⟨p1, ext1, evs1, r⟩
  simp only [proposalStatusChangeEmailNotificationStep, hs, hf, if_false, hp, hga]
  cases r with
  | error err => exact ⟨_, _, rfl, rfl⟩
  | ok author =>
    simp only []
    split
    · generalize b.invokeLogged ext1 _ _ _ = r1
      obtain ⟨ext2, evs2⟩ := r1
      simp only []
      generalize b.invokeLogged ext2 _ _ _ = r2
      obtain ⟨ext3, evs3⟩ := r2
      exact ⟨_, _, rfl, rfl⟩
    · split
      · generalize b.invokeLogged ext1 _ _ _ = r1
        obtain ⟨ext2, evs2⟩ := r1
        exact ⟨_, _, rfl, rfl⟩
      · exact ⟨_, _, rfl, rfl⟩

/-- Past its status filter, the step of the edited-proposal email handler
returns, and the heap is the old one with the record after
`getProposalAuthor` stored at the payload's address. -/
theorem editedEmail_writes {σ : Type} (v : V1) (b : Backend σ) (s : HState σ)
    (pe : EventDataProposalEdited) (ptr : Ptr)
    (hp : pe.Proposal = some ptr) (hst : (s.heap ptr).Status = v.PropStatusPublic) :
    ∃ s1 evs, proposalEditedEmailNotificationStep v b s (.ProposalEdited pe) = .ok (s1, evs)
      ∧ s1.heap = Function.update s.heap ptr (b.getProposalAuthor s.ext (s.heap ptr)).1 := by
  rcases hga : b.getProposalAuthor s.ext (s.heap ptr) with ⟨p1, ext1, evs1, r⟩
  simp only [proposalEditedEmailNotificationStep, hp, hst, ne_eq, not_true_eq_false, if_false,
    hga]
  cases r with
  | error err => exact ⟨_, _, rfl, rfl⟩
  | ok author =>
    simp only []
    generalize b.invokeLogged ext1 _ _ _ = r1
    obtain ⟨ext2, evs2⟩ := r1
    exact ⟨_, _, rfl, rfl⟩

theorem statusChangeEmail_heap {σ : Type} (v : V1) (b : Backend σ) (s s1 : HState σ)
    (psc : EventDataProposalStatusChange) (evs : List Event)
    (hstep : proposalStatusChangeEmailNotificationStep v b s (.ProposalStatusChange psc)
      = .ok (s1, evs)) :
    s1.heap = s.heap
    ∨ ∃ ptr sps, s1.heap = Function.update s.heap ptr (b.getProposalAuthor s.ext (s.heap ptr)).1
        ∧ psc.Proposal = some ptr ∧ psc.SetProposalStatus = some sps
        ∧ (sps.ProposalStatus = v.PropStatusPublic
          ∨ sps.ProposalStatus = v.PropStatusCensored) := by
  cases hs : psc.SetProposalStatus with
  | none => simp [proposalStatusChangeEmailNotificationStep, hs] at hstep
  | some sps =>
    by_cases hf : sps.ProposalStatus ≠ v.PropStatusPublic
        ∧ sps.ProposalStatus ≠ v.PropStatusCensored
    · simp only [proposalStatusChangeEmailNotificationStep, hs] at hstep
      rw [if_pos hf] at hstep
      injection hstep with hstep
      injection hstep with h1 _
      left
      rw [← h1]
    · cases hp : psc.Proposal with
      | none => simp [proposalStatusChangeEmailNotificationStep, hs, hf, hp] at hstep
      | some ptr =>
        have hst : sps.ProposalStatus = v.PropStatusPublic
            ∨ sps.ProposalStatus = v.PropStatusCensored := by
          by_cases h1 : sps.ProposalStatus = v.PropStatusPublic
          · exact Or.inl h1
          · by_cases h2 : sps.ProposalStatus = v.PropStatusCensored
            · exact Or.inr h2
            · exact absurd ⟨h1, h2⟩ hf
        obtain ⟨s2, evs2, hok, hheap⟩ := statusChangeEmail_writes v b s psc sps ptr hs hp hst
        rw [hok] at hstep
        injection hstep with hstep
        injection hstep with h1 _
        right
        exact ⟨ptr, sps, h1 ▸ hheap, rfl, rfl, hst⟩

theorem editedEmail_heap {σ : Type} (v : V1) (b : Backend σ) (s s1 : HState σ)
    (pe : EventDataProposalEdited) (evs : List Event)
    (hstep : proposalEditedEmailNotificationStep v b s (.ProposalEdited pe) = .ok (s1, evs)) :
    s1.heap = s.heap
    ∨ ∃ ptr, s1.heap = Function.update s.heap ptr (b.getProposalAuthor s.ext (s.heap ptr)).1
        ∧ pe.Proposal = some ptr ∧ (s.heap ptr).Status = v.PropStatusPublic := by
  cases hp : pe.Proposal with
  | none => simp [proposalEditedEmailNotificationStep, hp] at hstep
  | some ptr =>
    by_cases hst : (s.heap ptr).Status = v.PropStatusPublic
    · obtain ⟨s2, evs2, hok, hheap⟩ := editedEmail_writes v b s pe ptr hp hst
      rw [hok] at hstep
      injection hstep with hstep
      injection hstep with h1 _
      right
      exact ⟨ptr, h1 ▸ hheap, rfl, hst⟩
    · simp only [proposalEditedEmailNotificationStep, hp, ne_eq, hst, not_false_eq_true,
        if_true] at hstep
      injection hstep with hstep
      injection hstep with h1 _
      left
      rw [← h1]

/-- The heap after a step of any handler: the old heap, or the old heap with
the record after `getProposalAuthor` stored at the payload's address, the
latter only in the two email handlers that call `getProposalAuthor` on the
payload's pointer and only past their status filter. -/
theorem step_heap_exact {σ : Type} (h : HandlerId) (v : V1) (b : Backend σ) (s s1 : HState σ)
    (data : Payload) (evs : List Event) (hstep : h.step v b s data = .ok (s1, evs)) :
    s1.heap = s.heap
    ∨ ∃ ptr, s1.heap = Function.update s.heap ptr (b.getProposalAuthor s.ext (s.heap ptr)).1
        ∧ ((h = .ProposalStatusChangeEmailNotification
            ∧ ∃ psc sps, data = .ProposalStatusChange psc ∧ psc.Proposal = some ptr
              ∧ psc.SetProposalStatus = some sps
              ∧ (sps.ProposalStatus = v.PropStatusPublic
                ∨ sps.ProposalStatus = v.PropStatusCensored))
          ∨ (h = .ProposalEditedEmailNotification
            ∧ ∃ pe, data = .ProposalEdited pe ∧ pe.Proposal = some ptr
              ∧ (s.heap ptr).Status = v.PropStatusPublic)) := by
  by_cases h1 : ∃ psc, h = .ProposalStatusChangeEmailNotification
      ∧ data = .ProposalStatusChange psc
  · obtain ⟨psc, rfl, rfl⟩ := h1
    rcases statusChangeEmail_heap v b s s1 psc evs hstep with hh | ⟨ptr, sps, hh, hp, hs, hst⟩
    · exact Or.inl hh
    · exact Or.inr ⟨ptr, hh, Or.inl ⟨rfl, psc, sps, rfl, hp, hs, hst⟩⟩
  by_cases h2 : ∃ pe, h = .ProposalEditedEmailNotification ∧ data = .ProposalEdited pe
  · obtain ⟨pe, rfl, rfl⟩ := h2
    rcases editedEmail_heap v b s s1 pe evs hstep with hh | ⟨ptr, hh, hp, hst⟩
    · exact Or.inl hh
    · exact Or.inr ⟨ptr, hh, Or.inr ⟨rfl, pe, rfl, hp, hst⟩⟩
  left
  cases h <;> cases data <;>
    first
    | (simp at h1; done)
    | (simp at h2; done)
    | (simp only [HandlerId.step, proposalSubmittedEmailNotificationStep,
        proposalStatusChangeEmailNotificationStep, proposalStatusChangeLoggingStep,
        proposalEditedEmailNotificationStep, proposalVoteStartedEmailNotificationStep,
        proposalVoteStartedLoggingStep, proposalVoteAuthorizedEmailNotificationStep,
        userManageLoggingStep] at hstep
       (repeat' split at hstep) <;>
       first
       | (exact Except.noConfusion hstep)
       | (injection hstep with hstep
          injection hstep with hs he
          subst hs
          rfl))

theorem invokeLogged_collaboratorCalls {σ : Type} (b : Backend σ) (ext : σ) (c : Call)
    (format : String) (args : List String) :
    (b.invokeLogged ext c format args).2.filter Event.isCollaboratorCall = [.call c] := by
  rcases invokeLogged_events b ext c format args with h | ⟨err, h⟩ <;>
    simp [h, Event.isCollaboratorCall]

theorem invokeLogged_mail {σ : Type} (b : Backend σ) (ext : σ) (c : Call)
    (format : String) (args : List String) :
    (b.invokeLogged ext c format args).2.filter Event.isMail
      = if Event.isMail (.call c) then [.call c] else [] := by
  have hE : ∀ err, Event.isMail (.Errorf format (args ++ [err])) = false := fun _ => rfl
  rcases invokeLogged_events b ext c format args with h | ⟨err, h⟩ <;>
    cases hc : Event.isMail (.call c) <;> simp [h, hc, hE, List.filter]

theorem getProposalAuthor_no_mail {σ : Type} (b : Backend σ) (ext : σ) (p : ProposalRecord) :
    (b.getProposalAuthor ext p).2.2.1.filter Event.isMail = [] := by
  unfold Backend.getProposalAuthor
  by_cases h : p.UserId = "" <;> simp only [h, if_true, if_false] <;> split <;>
    simp [Event.isMail]

/-! ## The handlers -/

/-- C6 as stated fails: the proposal at address 0 has an empty `UserId`; after
the status-change email handler processed a change to public, and likewise
after the edited-proposal email handler processed an edit, the record has
`UserId` "id-alice", the id the public-key index holds for its `PublicKey`. -/
theorem C6_counterexample :
    (sampleState.heap 0).UserId = ""
    ∧ heapAfter (proposalStatusChangeEmailNotificationStep sampleV1 (sampleBackend none)
          sampleState (.ProposalStatusChange (sampleStatusChange 4))) 0
        = some ⟨4, "id-alice", "pk-alice", ⟨"abc123"⟩⟩
    ∧ heapAfter (proposalEditedEmailNotificationStep sampleV1 (sampleBackend none)
          sampleState (.ProposalEdited ⟨some 0⟩)) 0
        = some ⟨4, "id-alice", "pk-alice", ⟨"abc123"⟩⟩ := by
  decide

/-- C6 (amended): a step of any handler on any payload leaves `Status`,
`PublicKey` and `CensorshipRecord` of every proposal record as they were and
leaves a record with a non-empty `UserId` unchanged altogether. A record is
changed only if it is the one the payload points to and the handler is the
status-change email handler with new status public or censored, or the
edited-proposal email handler with the record's status public; every other
step leaves every record as it was. In those two cases the step returns, and
the heap after it is the old heap in which the payload's record has its empty
`UserId` replaced by the id that the public-key index holds for the record's
`PublicKey` (a non-empty `UserId` stays). -/
theorem C6_handlers_write_only_empty_UserId {σ : Type} (v : V1) (b : Backend σ)
    (s : HState σ) :
    (∀ (h : HandlerId) (data : Payload) (s1 : HState σ) (evs : List Event),
        h.step v b s data = .ok (s1, evs) → ∀ a : Ptr,
          (s1.heap a).Status = (s.heap a).Status
          ∧ (s1.heap a).PublicKey = (s.heap a).PublicKey
          ∧ (s1.heap a).CensorshipRecord = (s.heap a).CensorshipRecord
          ∧ ((s.heap a).UserId ≠ "" → s1.heap a = s.heap a)
          ∧ ((s1.heap a).UserId = (s.heap a).UserId
              ∨ ((s.heap a).UserId = ""
                  ∧ (s1.heap a).UserId = b.userPubkeys s.ext (s.heap a).PublicKey))
          ∧ (s1.heap a ≠ s.heap a →
              (h = .ProposalStatusChangeEmailNotification
                ∧ ∃ psc sps, data = .ProposalStatusChange psc ∧ psc.Proposal = some a
                  ∧ psc.SetProposalStatus = some sps
                  ∧ (sps.ProposalStatus = v.PropStatusPublic
                    ∨ sps.ProposalStatus = v.PropStatusCensored))
              ∨ (h = .ProposalEditedEmailNotification
                ∧ ∃ pe, data = .ProposalEdited pe ∧ pe.Proposal = some a
                  ∧ (s.heap a).Status = v.PropStatusPublic)))
    ∧ (∀ (h : HandlerId) (data : Payload) (s1 : HState σ) (evs : List Event),
        h ≠ .ProposalStatusChangeEmailNotification → h ≠ .ProposalEditedEmailNotification →
        h.step v b s data = .ok (s1, evs) → s1.heap = s.heap)
    ∧ (∀ (psc : EventDataProposalStatusChange) (sps : SetProposalStatus) (a : Ptr),
        psc.SetProposalStatus = some sps → psc.Proposal = some a →
        (sps.ProposalStatus = v.PropStatusPublic
          ∨ sps.ProposalStatus = v.PropStatusCensored) →
        ∃ s1 evs, proposalStatusChangeEmailNotificationStep v b s (.ProposalStatusChange psc)
            = .ok (s1, evs)
          ∧ s1.heap = Function.update s.heap a
              (if (s.heap a).UserId = "" then
                { s.heap a with UserId := b.userPubkeys s.ext (s.heap a).PublicKey }
              else s.heap a))
    ∧ (∀ (pe : EventDataProposalEdited) (a : Ptr),
        pe.Proposal = some a → (s.heap a).Status = v.PropStatusPublic →
        ∃ s1 evs, proposalEditedEmailNotificationStep v b s (.ProposalEdited pe)
            = .ok (s1, evs)
          ∧ s1.heap = Function.update s.heap a
              (if (s.heap a).UserId = "" then
                { s.heap a with UserId := b.userPubkeys s.ext (s.heap a).PublicKey }
              else s.heap a)) := by
  refine ⟨?_, ?_, ?_, ?_⟩
  · intro h data s1 evs hstep a
    rcases step_heap_exact h v b s s1 data evs hstep with hh | ⟨ptr, hh, hw⟩
    · rw [hh]
      exact ⟨rfl, rfl, rfl, fun _ => rfl, Or.inl rfl, fun hne => absurd rfl hne⟩
    · rw [hh, getProposalAuthor_fst]
      by_cases hpa : a = ptr
      · subst hpa
        simp only [Function.update_same]
        by_cases hu : (s.heap a).UserId = ""
        · rw [if_pos hu]
          exact ⟨rfl, rfl, rfl, fun hne => absurd hu hne, Or.inr ⟨hu, rfl⟩, fun _ => hw⟩
        · rw [if_neg hu]
          exact ⟨rfl, rfl, rfl, fun _ => rfl, Or.inl rfl, fun hne => absurd rfl hne⟩
      · rw [Function.update_noteq hpa]
        exact ⟨rfl, rfl, rfl, fun _ => rfl, Or.inl rfl, fun hne => absurd rfl hne⟩
  · intro h data s1 evs hn1 hn2 hstep
    rcases step_heap_exact h v b s s1 data evs hstep with hh | ⟨ptr, _, hw⟩
    · exact hh
    · rcases hw with ⟨hh, _⟩ | ⟨hh, _⟩
      · exact absurd hh hn1
      · exact absurd hh hn2
  · intro psc sps a hs hp hst
    obtain ⟨s1, evs, hok, hheap⟩ := statusChangeEmail_writes v b s psc sps a hs hp hst
    exact ⟨s1, evs, hok, by rw [hheap, getProposalAuthor_fst]⟩
  · intro pe a hp hst
    obtain ⟨s1, evs, hok, hheap⟩ := editedEmail_writes v b s pe a hp hst
    exact ⟨s1, evs, hok, by rw [hheap, getProposalAuthor_fst]⟩

/-- C6 (amended), on the status-change email handler processing a change to
public of the proposal at address 0, whose `UserId` is empty: the record at
address 0 gets `UserId` "id-alice", the record at address 1 stays; and on the
user-management audit-log handler, which leaves the heap alone. -/
theorem C6_handlers_write_only_empty_UserId_witness :
    (∃ s1 evs, proposalStatusChangeEmailNotificationStep sampleV1 (sampleBackend none)
        sampleState (.ProposalStatusChange (sampleStatusChange 4)) = .ok (s1, evs)
      ∧ s1.heap 0 = ⟨4, "id-alice", "pk-alice", ⟨"abc123"⟩⟩
      ∧ s1.heap 1 = sampleState.heap 1)
    ∧ (∀ s1 evs, HandlerId.UserManageLogging.step sampleV1 (sampleBackend none) sampleState
          (.UserManage ⟨some sampleAdmin, some sampleAuthor, some ⟨"lock", "policy"⟩⟩)
            = .ok (s1, evs) →
        s1.heap = sampleState.heap) := by
  refine ⟨?_, ?_⟩
  · obtain ⟨s1, evs, hok, hheap⟩ :=
      (C6_handlers_write_only_empty_UserId sampleV1 (sampleBackend none) sampleState).2.2.1
        (sampleStatusChange 4) ⟨4, "spam"⟩ 0 rfl rfl (Or.inl rfl)
    refine ⟨s1, evs, hok, ?_, ?_⟩
    · rw [hheap]
      decide
    · rw [hheap]
      decide
  · intro s1 evs hstep
    exact (C6_handlers_write_only_empty_UserId sampleV1 (sampleBackend none) sampleState).2.1
      .UserManageLogging _ s1 evs (by decide) (by decide) hstep

/-- C8: for a status-change payload whose new status is neither public nor
censored, the step of the email handler returns the state as it was with no
event at all (no mailer call, no lookup, no log line), and, when the payload
carries a proposal, the step of the audit-log handler makes exactly one
collaborator call, `logAdminProposalAction` with the admin user, the
proposal's token, "set proposal status to " followed by the status name, and
the status-change message. With a nil proposal the audit-log step panics. -/
theorem C8_other_status_no_mail_but_logged {σ : Type} (v : V1) (b : Backend σ)
    (s : HState σ) (psc : EventDataProposalStatusChange) (sps : SetProposalStatus)
    (hs : psc.SetProposalStatus = some sps)
    (hpublic : sps.ProposalStatus ≠ v.PropStatusPublic)
    (hcensored : sps.ProposalStatus ≠ v.PropStatusCensored) :
    proposalStatusChangeEmailNotificationStep v b s (.ProposalStatusChange psc) = .ok (s, [])
    ∧ (∀ ptr, psc.Proposal = some ptr →
        ∃ s1 evs, proposalStatusChangeLoggingStep v b s (.ProposalStatusChange psc)
            = .ok (s1, evs)
          ∧ s1.heap = s.heap
          ∧ evs.filter Event.isCollaboratorCall =
              [.call (.logAdminProposalAction psc.AdminUser (s.heap ptr).CensorshipRecord.Token
                ("set proposal status to " ++ v.PropStatus sps.ProposalStatus)
                sps.StatusChangeMessage)]
          ∧ evs.filter Event.isMail = [])
    ∧ (psc.Proposal = none →
        proposalStatusChangeLoggingStep v b s (.ProposalStatusChange psc)
          = .error .nilPointerDereference) := by
  refine ⟨?_, ?_, ?_⟩
  · simp [proposalStatusChangeEmailNotificationStep, hs, hpublic, hcensored]
  · intro ptr hp
    have hc := invokeLogged_collaboratorCalls b s.ext
      (.logAdminProposalAction psc.AdminUser (s.heap ptr).CensorshipRecord.Token
        ("set proposal status to " ++ v.PropStatus sps.ProposalStatus)
        sps.StatusChangeMessage) "could not log action to file: %v" []
    have hm := invokeLogged_mail b s.ext
      (.logAdminProposalAction psc.AdminUser (s.heap ptr).CensorshipRecord.Token
        ("set proposal status to " ++ v.PropStatus sps.ProposalStatus)
        sps.StatusChangeMessage) "could not log action to file: %v" []
    simp only [Event.isMail, Bool.false_eq_true, if_false] at hm
    simp only [proposalStatusChangeLoggingStep, hp, hs]
    generalize b.invokeLogged s.ext _ _ _ = r at hc hm ⊢
    obtain ⟨ext1, evs⟩ := r
    exact ⟨_, _, rfl, rfl, hc, hm⟩
  · intro hp
    simp [proposalStatusChangeLoggingStep, hp]

/-- C8, on a change of the proposal at address 0 to status 2 ("not reviewed"). -/
theorem C8_other_status_witness :
    eventsOf (proposalStatusChangeEmailNotificationStep sampleV1 (sampleBackend none)
        sampleState (.ProposalStatusChange (sampleStatusChange 2))) = some []
    ∧ eventsOf (proposalStatusChangeLoggingStep sampleV1 (sampleBackend none)
        sampleState (.ProposalStatusChange (sampleStatusChange 2)))
      = some [.call (.logAdminProposalAction (some sampleAdmin) "abc123"
          "set proposal status to not reviewed" "spam")] := by
  refine ⟨?_, by decide⟩
  rw [(C8_other_status_no_mail_but_logged sampleV1 (sampleBackend none) sampleState
    (sampleStatusChange 2) ⟨2, "spam"⟩ rfl (by decide) (by decide)).1]
  rfl

/-- C9: for a status-change payload with status censored whose author lookup
succeeds, the audit-log handler makes exactly one collaborator call,
`logAdminProposalAction (admin, token, "set proposal status to censored",
message)`, and the mailer calls of the email handler are exactly one
`emailAuthorForCensoredProposal`, whatever that call returns; neither
`emailAuthorForVettedProposal` nor `emailUsersForVettedProposal` is called.
`hne` and `hname` are the facts used about package `v1`: the two status
constants differ (they are distinct `case`s of one `switch`) and the name of
the censored status is "censored". -/
theorem C9_censored_one_log_entry_one_author_mail {σ : Type} (v : V1) (b : Backend σ)
    (s : HState σ) (psc : EventDataProposalStatusChange) (sps : SetProposalStatus)
    (ptr : Ptr) (author : Option User)
    (hne : v.PropStatusPublic ≠ v.PropStatusCensored)
    (hname : v.PropStatus v.PropStatusCensored = "censored")
    (hp : psc.Proposal = some ptr) (hs : psc.SetProposalStatus = some sps)
    (hst : sps.ProposalStatus = v.PropStatusCensored)
    (hauthor : (b.getProposalAuthor s.ext (s.heap ptr)).2.2.2 = .ok author) :
    (∃ s1 evs, proposalStatusChangeLoggingStep v b s (.ProposalStatusChange psc) = .ok (s1, evs)
      ∧ evs.filter Event.isCollaboratorCall =
          [.call (.logAdminProposalAction psc.AdminUser (s.heap ptr).CensorshipRecord.Token
            "set proposal status to censored" sps.StatusChangeMessage)])
    ∧ (∃ s1 evs, proposalStatusChangeEmailNotificationStep v b s (.ProposalStatusChange psc)
          = .ok (s1, evs)
      ∧ evs.filter Event.isMail =
          [.call (.emailAuthorForCensoredProposal (b.getProposalAuthor s.ext (s.heap ptr)).1
            author psc.AdminUser)]
      ∧ (b.getProposalAuthor s.ext (s.heap ptr)).1.CensorshipRecord
          = (s.heap ptr).CensorshipRecord
      ∧ (∀ p a u, Event.call (.emailAuthorForVettedProposal p a u) ∉ evs)
      ∧ (∀ p a u, Event.call (.emailUsersForVettedProposal p a u) ∉ evs)) := by
  have hnm := getProposalAuthor_no_mail b s.ext (s.heap ptr)
  have hrec := getProposalAuthor_record b s.ext (s.heap ptr)
  rcases hga : b.getProposalAuthor s.ext (s.heap ptr) with ⟨p1, ext1, evs1, r⟩
  rw [hga] at hauthor hnm hrec
  simp only at hauthor hnm hrec
  subst hauthor
  refine ⟨?_, ?_⟩
  · have hc := invokeLogged_collaboratorCalls b s.ext
      (.logAdminProposalAction psc.AdminUser (s.heap ptr).CensorshipRecord.Token
        "set proposal status to censored" sps.StatusChangeMessage)
      "could not log action to file: %v" []
    have hstr : "set proposal status to " ++ "censored" = "set proposal status to censored" := by
      decide
    simp only [proposalStatusChangeLoggingStep, hp, hs, hst, hname, hstr]
    generalize b.invokeLogged s.ext _ _ _ = r at hc ⊢
    obtain ⟨ext2, evs⟩ := r
    exact ⟨_, _, rfl, hc⟩
  · have hm := invokeLogged_mail b ext1
      (.emailAuthorForCensoredProposal p1 author psc.AdminUser)
      "email author for censored proposal %v: %v" [p1.CensorshipRecord.Token]
    have hmail : Event.isMail (.call (.emailAuthorForCensoredProposal p1 author psc.AdminUser))
        = true := rfl
    simp only [hmail, if_true] at hm
    have hcond : ¬ (v.PropStatusCensored ≠ v.PropStatusPublic
        ∧ v.PropStatusCensored ≠ v.PropStatusCensored) := fun hh => hh.2 rfl
    simp only [proposalStatusChangeEmailNotificationStep, hp, hs, hst, hcond, if_false, hga,
      hne.symm, if_true]
    generalize b.invokeLogged ext1 _ _ _ = r at hm ⊢
    obtain ⟨ext2, evs2⟩ := r
    have hfilter : (evs1 ++ evs2).filter Event.isMail
        = [.call (.emailAuthorForCensoredProposal p1 author psc.AdminUser)] := by
      rw [List.filter_append, hnm, hm]
      rfl
    refine ⟨_, _, rfl, hfilter, ?_, ?_, ?_⟩
    · rcases hrec with hrec | ⟨_, hrec⟩ <;> rw [hrec]
    · intro p a u hin
      have hin2 : Event.call (.emailAuthorForVettedProposal p a u)
          ∈ (evs1 ++ evs2).filter Event.isMail := List.mem_filter.2 ⟨hin, rfl⟩
      rw [hfilter] at hin2
      simp at hin2
    · intro p a u hin
      have hin2 : Event.call (.emailUsersForVettedProposal p a u)
          ∈ (evs1 ++ evs2).filter Event.isMail := List.mem_filter.2 ⟨hin, rfl⟩
      rw [hfilter] at hin2
      simp at hin2

/-- C9, on the scenario of the spec: admin A censors the proposal with token
"abc123" at address 0 with message "spam", and the mailer call fails. -/
theorem C9_censored_witness :
    eventsOf (proposalStatusChangeLoggingStep sampleV1 (sampleBackend (some "smtp down"))
        sampleState (.ProposalStatusChange (sampleStatusChange 3)))
      = some [.call (.logAdminProposalAction (some sampleAdmin) "abc123"
          "set proposal status to censored" "spam"),
          .Errorf "could not log action to file: %v" ["smtp down"]]
    ∧ eventsOf (proposalStatusChangeEmailNotificationStep sampleV1
        (sampleBackend (some "smtp down")) sampleState
        (.ProposalStatusChange (sampleStatusChange 3)))
      = some [.userPubkeys "pk-alice", .UserGetById "id-alice",
          .call (.emailAuthorForCensoredProposal ⟨4, "id-alice", "pk-alice", ⟨"abc123"⟩⟩
            (some sampleAuthor) (some sampleAdmin)),
          .Errorf "email author for censored proposal %v: %v" ["abc123", "smtp down"]]
    ∧ ∃ s1 evs, proposalStatusChangeEmailNotificationStep sampleV1
          (sampleBackend (some "smtp down")) sampleState
          (.ProposalStatusChange (sampleStatusChange 3)) = .ok (s1, evs)
        ∧ evs.filter Event.isMail =
          [.call (.emailAuthorForCensoredProposal ⟨4, "id-alice", "pk-alice", ⟨"abc123"⟩⟩
            (some sampleAuthor) (some sampleAdmin))] := by
  refine ⟨by decide, by decide, ?_⟩
  obtain ⟨_, s1, evs, h1, h2, _⟩ := C9_censored_one_log_entry_one_author_mail sampleV1
    (sampleBackend (some "smtp down")) sampleState (sampleStatusChange 3) ⟨3, "spam"⟩ 0
    (some sampleAuthor) (by decide) (by decide) rfl rfl rfl rfl
  exact ⟨s1, evs, h1, h2⟩

theorem step_wrong_variant {σ : Type} (h : HandlerId) (v : V1) (b : Backend σ) (s : HState σ)
    (data : Payload) (hw : h.expects data = false) :
    h.step v b s data = .ok (s, [.Errorf "invalid event data" []]) := by
  cases h <;> cases data <;>
    first
    | rfl
    | exact absurd hw (by simp [HandlerId.expects])

theorem loop_cons {σ : Type} (h : HandlerId) (v : V1) (b : Backend σ) (s : HState σ)
    (data : Payload) (rest : List Payload) :
    h.loop v b s (data :: rest) =
      match h.step v b s data with
      | .error p => ⟨s, [], some p⟩
      | .ok (s1, evs) =>
        ⟨(h.loop v b s1 rest).state, evs ++ (h.loop v b s1 rest).events,
          (h.loop v b s1 rest).panicked⟩ := by
  rw [HandlerId.loop]

theorem loop_filter {σ : Type} (h : HandlerId) (v : V1) (b : Backend σ) (ps : List Payload)
    (s : HState σ) :
    (h.loop v b s ps).events.filter Event.isCollaboratorCall
        = (h.loop v b s (ps.filter h.expects)).events.filter Event.isCollaboratorCall
    ∧ (h.loop v b s ps).state = (h.loop v b s (ps.filter h.expects)).state
    ∧ (h.loop v b s ps).panicked = (h.loop v b s (ps.filter h.expects)).panicked := by
  induction ps generalizing s with
  | nil => exact ⟨rfl, rfl, rfl⟩
  | cons data rest ih =>
    cases hx : h.expects data with
    | false =>
      rw [List.filter_cons_of_neg (by simp [hx]), loop_cons, step_wrong_variant h v b s data hx]
      obtain ⟨h1, h2, h3⟩ := ih s
      refine ⟨?_, h2, h3⟩
      simp only [List.filter_append]
      rw [← h1]
      rfl
    | true =>
      rw [List.filter_cons_of_pos (by simp [hx]), loop_cons, loop_cons]
      cases hstep : h.step v b s data with
      | error p => exact ⟨rfl, rfl, rfl⟩
      | ok r =>
        obtain ⟨s1, evs⟩ := r
        obtain ⟨h1, h2, h3⟩ := ih s1
        refine ⟨?_, h2, h3⟩
        simp only [List.filter_append]
        rw [h1]

/-- C10: for every handler, a payload that is not of the variant the handler
asserts yields one `log.Errorf("invalid event data")` line, no collaborator
call (no mail, no audit-log entry, no lookup), no state change and no panic;
and over any sequence of payloads the collaborator calls (in order), the final
state and whether the loop was ended by a panic are the same as for the
sequence with the wrong-variant payloads removed. A sequence of wrong-variant
payloads alone makes no collaborator call and does not end the loop. -/
theorem C10_wrong_variant_skipped {σ : Type} (h : HandlerId) (v : V1) (b : Backend σ)
    (s : HState σ) (ps : List Payload) :
    (∀ (s0 : HState σ) (data : Payload), h.expects data = false →
        h.step v b s0 data = .ok (s0, [.Errorf "invalid event data" []]))
    ∧ (h.loop v b s ps).events.filter Event.isCollaboratorCall
        = (h.loop v b s (ps.filter h.expects)).events.filter Event.isCollaboratorCall
    ∧ (h.loop v b s ps).state = (h.loop v b s (ps.filter h.expects)).state
    ∧ (h.loop v b s ps).panicked = (h.loop v b s (ps.filter h.expects)).panicked
    ∧ ((∀ data ∈ ps, h.expects data = false) →
        (h.loop v b s ps).events.filter Event.isCollaboratorCall = []
        ∧ (h.loop v b s ps).state = s ∧ (h.loop v b s ps).panicked = none) := by
  obtain ⟨h1, h2, h3⟩ := loop_filter h v b ps s
  refine ⟨fun s0 data hw => step_wrong_variant h v b s0 data hw, h1, h2, h3, ?_⟩
  intro hall
  have hnil : ps.filter h.expects = [] := by
    rw [List.filter_eq_nil_iff]
    intro data hin
    simp [hall data hin]
  rw [h1, h2, h3, hnil]
  exact ⟨rfl, rfl, rfl⟩

/-- C10, on the user-management audit-log handler receiving a value of another
type, a `UserManage` payload and a `ProposalEdited` payload. -/
theorem C10_wrong_variant_witness :
    (HandlerId.UserManageLogging.loop sampleV1 (sampleBackend none) sampleState
        [.otherType 0,
          .UserManage ⟨some sampleAdmin, some sampleAuthor, some ⟨"lock", "policy violation"⟩⟩,
          .ProposalEdited ⟨none⟩]).events
      = [.Errorf "invalid event data" [],
          .call (.logAdminUserAction (some sampleAdmin) (some sampleAuthor) "lock"
            "policy violation"),
          .Errorf "invalid event data" []]
    ∧ (HandlerId.UserManageLogging.loop sampleV1 (sampleBackend none) sampleState
        [.otherType 0,
          .UserManage ⟨some sampleAdmin, some sampleAuthor, some ⟨"lock", "policy violation"⟩⟩,
          .ProposalEdited ⟨none⟩]).panicked = none
    ∧ HandlerId.UserManageLogging.step sampleV1 (sampleBackend none) sampleState
        (.ProposalEdited ⟨none⟩) = .ok (sampleState, [.Errorf "invalid event data" []]) :=
  ⟨by decide, by decide,
    (C10_wrong_variant_skipped .UserManageLogging sampleV1 (sampleBackend none) sampleState
      []).1 sampleState (.ProposalEdited ⟨none⟩) rfl⟩

end Politeia
